/-
Verification of the loan-engine funding ledger and state-transition service.

The definitions below are a shallow embedding of the Go service layer
(internal/services/loan_service.go, the loanServiceImpl methods) together
with the repository operations it calls (internal/repositories).  Monetary
amounts are embedded as exact rationals: the database stores them as
DECIMAL(15,2) columns, so the arithmetic performed by the service
(addition, subtraction, comparison) is exact.  The relational tables are
embedded as lists of rows; each repository method is the obvious list
operation matching its SQL statement.  Service methods thread the store
state explicitly and return the possibly-updated state together with an
optional error, mirroring the Go methods that mutate the store through
repository calls and return an error value.
-/
import Mathlib

namespace LoanEngine

/-- The four phases of the loan lifecycle (column current_state). -/
inductive LoanState where
  | proposed
  | approved
  | invested
  | disbursed
deriving DecidableEq, Repr

/-- A row of the loans table (models.Loan). -/
structure Loan where
  id : Nat
  borrowerID : Nat
  principalAmount : ℚ
  rate : ℚ
  roi : ℚ
  agreementLetterLink : String
  currentState : LoanState
  totalInvestedAmount : ℚ
deriving DecidableEq, Repr

/-- A row of the loan_approvals table (models.LoanApproval). -/
structure LoanApproval where
  loanID : Nat
  fieldValidatorEmployeeID : String
  proofImageUrl : String
deriving DecidableEq, Repr

/-- A row of the loan_investments table (models.LoanInvestment). -/
structure LoanInvestment where
  loanID : Nat
  investorID : Nat
  investmentAmount : ℚ
deriving DecidableEq, Repr

/-- A row of the loan_disbursements table (models.LoanDisbursement). -/
structure LoanDisbursement where
  loanID : Nat
  fieldOfficerEmployeeID : String
  agreementLetterSignedUrl : String
deriving DecidableEq, Repr

/-- A row of the loan_state_history table (models.LoanStateHistory). -/
structure LoanStateHistory where
  loanID : Nat
  previousState : LoanState
  newState : LoanState
  transitionReason : String
deriving DecidableEq, Repr

/-- The persistent store: the five tables the loan service touches. -/
structure EngineState where
  loans : List Loan
  approvals : List LoanApproval
  disbursements : List LoanDisbursement
  investments : List LoanInvestment
  stateHistory : List LoanStateHistory
deriving DecidableEq, Repr

/-- The empty store. -/
def EngineState.empty : EngineState := ⟨[], [], [], [], []⟩

/-- The typed errors returned by the service methods, one constructor per
distinct error message in loan_service.go. -/
inductive ServiceError where
  | principalAmountNotPositive
  | rateOutOfRange
  | roiOutOfRange
  | loanNotFound
  | mustBeProposedToApprove
  | fieldValidatorEmployeeIDRequired
  | proofImageUrlRequired
  | mustBeApprovedToInvest
  | investmentAmountNotPositive
  | exceedsRemainingPrincipal
  | investorAlreadyInvested
  | mustBeInvestedToDisburse
  | totalMismatch
  | fieldOfficerEmployeeIDRequired
  | agreementLetterSignedUrlRequired
deriving DecidableEq, Repr

/- ## Repository layer -/

/-- LoanRepository.GetByID: SELECT ... FROM loans WHERE id = $1. -/
def loanRepoGetByID (db : EngineState) (id : Nat) : Option Loan :=
  db.loans.find? (fun l => l.id == id)

/-- LoanRepository.Create: INSERT INTO loans. -/
def loanRepoCreate (db : EngineState) (loan : Loan) : EngineState :=
  { db with loans := db.loans ++ [loan] }

/-- LoanRepository.Update: UPDATE loans SET all columns WHERE id = loan.id. -/
def loanRepoUpdate (db : EngineState) (loan : Loan) : EngineState :=
  { db with loans := db.loans.map (fun l => if l.id == loan.id then loan else l) }

/-- An UPDATE of selected columns of the loans row with the given id. -/
def updateLoanRow (db : EngineState) (id : Nat) (f : Loan → Loan) : EngineState :=
  { db with loans := db.loans.map (fun l => if l.id == id then f l else l) }

/-- LoanRepository.UpdateState: UPDATE loans SET current_state WHERE id = $2. -/
def loanRepoUpdateState (db : EngineState) (id : Nat) (newState : LoanState) : EngineState :=
  updateLoanRow db id (fun l => { l with currentState := newState })

/-- LoanRepository.UpdateTotalInvestedAmount:
UPDATE loans SET total_invested_amount WHERE id = $2. -/
def loanRepoUpdateTotalInvestedAmount (db : EngineState) (id : Nat) (amount : ℚ) : EngineState :=
  updateLoanRow db id (fun l => { l with totalInvestedAmount := amount })

/-- LoanRepository.GetTotalInvestedAmount:
SELECT total_invested_amount FROM loans WHERE id = $1 (the stored column). -/
def loanRepoGetTotalInvestedAmount (db : EngineState) (id : Nat) : Option ℚ :=
  (loanRepoGetByID db id).map (fun l => l.totalInvestedAmount)

/-- LoanApprovalRepository.Create: INSERT INTO loan_approvals. -/
def approvalRepoCreate (db : EngineState) (a : LoanApproval) : EngineState :=
  { db with approvals := db.approvals ++ [a] }

/-- LoanDisbursementRepository.Create: INSERT INTO loan_disbursements. -/
def disbursementRepoCreate (db : EngineState) (d : LoanDisbursement) : EngineState :=
  { db with disbursements := db.disbursements ++ [d] }

/-- LoanStateHistoryRepository.Create: INSERT INTO loan_state_history. -/
def historyRepoCreate (db : EngineState) (h : LoanStateHistory) : EngineState :=
  { db with stateHistory := db.stateHistory ++ [h] }

/-- LoanInvestmentRepository.Create: INSERT INTO loan_investments. -/
def investmentRepoCreate (db : EngineState) (inv : LoanInvestment) : EngineState :=
  { db with investments := db.investments ++ [inv] }

/-- LoanInvestmentRepository.GetByLoanAndInvestor:
SELECT ... FROM loan_investments WHERE loan_id = $1 AND investor_id = $2. -/
def investmentRepoGetByLoanAndInvestor (db : EngineState) (loanID investorID : Nat) :
    Option LoanInvestment :=
  db.investments.find? (fun i => i.loanID == loanID && i.investorID == investorID)

/-- The rows of loan_investments with the given loan_id. -/
def investmentsFor (db : EngineState) (loanID : Nat) : List LoanInvestment :=
  db.investments.filter (fun i => i.loanID == loanID)

/-- LoanInvestmentRepository.GetTotalInvestedAmountByLoan:
SELECT COALESCE(SUM(investment_amount), 0) FROM loan_investments WHERE loan_id = $1. -/
def investmentRepoGetTotalInvestedAmountByLoan (db : EngineState) (loanID : Nat) : ℚ :=
  ((investmentsFor db loanID).map (fun i => i.investmentAmount)).sum

/-- The rows of loan_state_history with the given loan_id, in insertion order. -/
def historyFor (db : EngineState) (loanID : Nat) : List LoanStateHistory :=
  db.stateHistory.filter (fun h => h.loanID == loanID)

/- ## Service layer (loanServiceImpl) -/

/-- loanServiceImpl.CreateLoan. -/
def CreateLoan (db : EngineState) (loan : Loan) : EngineState × Option ServiceError :=
  if loan.principalAmount ≤ 0 then (db, some .principalAmountNotPositive)
  else if loan.rate < 0 ∨ loan.rate > 100 then (db, some .rateOutOfRange)
  else if loan.roi < 0 ∨ loan.roi > 100 then (db, some .roiOutOfRange)
  else
    (loanRepoCreate db { loan with currentState := .proposed, totalInvestedAmount := 0 }, none)

/-- loanServiceImpl.UpdateLoan. -/
def UpdateLoan (db : EngineState) (id : Nat) (loan : Loan) : EngineState × Option ServiceError :=
  match loanRepoGetByID db id with
  | none => (db, some .loanNotFound)
  | some existingLoan =>
    let loan1 :=
      if existingLoan.currentState ≠ .proposed then
        { loan with
            borrowerID := existingLoan.borrowerID
            principalAmount := existingLoan.principalAmount
            rate := existingLoan.rate
            roi := existingLoan.roi
            agreementLetterLink := existingLoan.agreementLetterLink }
      else loan
    (loanRepoUpdate db { loan1 with id := id }, none)

/-- loanServiceImpl.ApproveLoan. -/
def ApproveLoan (db : EngineState) (loanID : Nat) (approvalData : LoanApproval) :
    EngineState × Option ServiceError :=
  match loanRepoGetByID db loanID with
  | none => (db, some .loanNotFound)
  | some loan =>
    if loan.currentState ≠ .proposed then (db, some .mustBeProposedToApprove)
    else if approvalData.fieldValidatorEmployeeID = "" then
      (db, some .fieldValidatorEmployeeIDRequired)
    else if approvalData.proofImageUrl = "" then (db, some .proofImageUrlRequired)
    else
      let db1 := approvalRepoCreate db { approvalData with loanID := loanID }
      let db2 := loanRepoUpdateState db1 loanID .approved
      let db3 := historyRepoCreate db2
        ⟨loanID, loan.currentState, .approved, "Loan approved by staff"⟩
      (db3, none)

/-- loanServiceImpl.InvestInLoan.  The email fan-out performed after the
funding transition only reads the store and calls the external email
collaborator; it changes none of the tables, so it has no effect here. -/
def InvestInLoan (db : EngineState) (loanID : Nat) (investment : LoanInvestment) :
    EngineState × Option ServiceError :=
  match loanRepoGetByID db loanID with
  | none => (db, some .loanNotFound)
  | some loan =>
    if loan.currentState ≠ .approved then (db, some .mustBeApprovedToInvest)
    else if investment.investmentAmount ≤ 0 then (db, some .investmentAmountNotPositive)
    else if investment.investmentAmount > loan.principalAmount - loan.totalInvestedAmount then
      (db, some .exceedsRemainingPrincipal)
    else
      match investmentRepoGetByLoanAndInvestor db loanID investment.investorID with
      | some _ => (db, some .investorAlreadyInvested)
      | none =>
        let db1 := investmentRepoCreate db { investment with loanID := loanID }
        let newTotal := loan.totalInvestedAmount + investment.investmentAmount
        let db2 := loanRepoUpdateTotalInvestedAmount db1 loanID newTotal
        if newTotal ≥ loan.principalAmount then
          let db3 := loanRepoUpdateState db2 loanID .invested
          let db4 := historyRepoCreate db3
            ⟨loanID, loan.currentState, .invested, "Loan fully invested"⟩
          (db4, none)
        else (db2, none)

/-- loanServiceImpl.DisburseLoan. -/
def DisburseLoan (db : EngineState) (loanID : Nat) (disbursementData : LoanDisbursement) :
    EngineState × Option ServiceError :=
  match loanRepoGetByID db loanID with
  | none => (db, some .loanNotFound)
  | some loan =>
    if loan.currentState ≠ .invested then (db, some .mustBeInvestedToDisburse)
    else if loan.totalInvestedAmount ≠ loan.principalAmount then (db, some .totalMismatch)
    else if disbursementData.fieldOfficerEmployeeID = "" then
      (db, some .fieldOfficerEmployeeIDRequired)
    else if disbursementData.agreementLetterSignedUrl = "" then
      (db, some .agreementLetterSignedUrlRequired)
    else
      let db1 := disbursementRepoCreate db { disbursementData with loanID := loanID }
      let db2 := loanRepoUpdateState db1 loanID .disbursed
      let db3 := historyRepoCreate db2
        ⟨loanID, loan.currentState, .disbursed, "Loan disbursed to borrower"⟩
      (db3, none)

/-- loanServiceImpl.GetTotalInvestedAmount: delegates to
LoanRepository.GetTotalInvestedAmount, which reads the stored
total_invested_amount column of the loans row. -/
def GetTotalInvestedAmount (db : EngineState) (loanID : Nat) : Option ℚ :=
  loanRepoGetTotalInvestedAmount db loanID

/- ## Sequential execution -/

/-- One call to a mutating core operation of the transition engine. -/
inductive Op where
  | approve (loanID : Nat) (a : LoanApproval)
  | invest (loanID : Nat) (inv : LoanInvestment)
  | disburse (loanID : Nat) (d : LoanDisbursement)

/-- Execute one operation; on error the Go service leaves the store as the
repository calls left it, and every error return in the embedded methods
happens before any repository write. -/
def applyOp (db : EngineState) (op : Op) : EngineState × Option ServiceError :=
  match op with
  | .approve lid a => ApproveLoan db lid a
  | .invest lid inv => InvestInLoan db lid inv
  | .disburse lid d => DisburseLoan db lid d

/-- Execute a sequence of operations. -/
def runOps (db : EngineState) (ops : List Op) : EngineState :=
  ops.foldl (fun s op => (applyOp s op).1) db

/-- The audit record written by ApproveLoan. -/
def approveRecord (loanID : Nat) : LoanStateHistory :=
  ⟨loanID, .proposed, .approved, "Loan approved by staff"⟩

/-- The audit record written by InvestInLoan on the funding transition. -/
def investRecord (loanID : Nat) : LoanStateHistory :=
  ⟨loanID, .approved, .invested, "Loan fully invested"⟩

/-- The audit record written by DisburseLoan. -/
def disburseRecord (loanID : Nat) : LoanStateHistory :=
  ⟨loanID, .invested, .disbursed, "Loan disbursed to borrower"⟩

/-- The full audit trail a loan in the given state must carry. -/
def expectedHistory (loanID : Nat) : LoanState → List LoanStateHistory
  | .proposed => []
  | .approved => [approveRecord loanID]
  | .invested => [approveRecord loanID, investRecord loanID]
  | .disbursed => [approveRecord loanID, investRecord loanID, disburseRecord loanID]

/-- The rows of loan_investments for the given (loan, investor) pair. -/
def ledgerRowsFor (db : EngineState) (lid iid : Nat) : List LoanInvestment :=
  (investmentsFor db lid).filter (fun i => i.investorID == iid)

/-- Rows have pairwise distinct contributor identities. -/
def distinctInvestors (xs : List LoanInvestment) : Prop :=
  List.Pairwise (fun a b => a.investorID ≠ b.investorID) xs

/-- Invariant maintained for an existing loan by Approve, Invest and
Disburse: the stored total equals the ledger sum, never exceeds the
principal, the audit trail matches the current phase, and the ledger holds
at most one row per investor. -/
def LoanInv (db : EngineState) (lid : Nat) : Prop :=
  ∃ loan, loanRepoGetByID db lid = some loan ∧
    loan.totalInvestedAmount = investmentRepoGetTotalInvestedAmountByLoan db lid ∧
    loan.totalInvestedAmount ≤ loan.principalAmount ∧
    historyFor db lid = expectedHistory lid loan.currentState ∧
    distinctInvestors (investmentsFor db lid)

/- ## Interleaved execution of InvestInLoan calls on one loan

One InvestInLoan call in the Go service is a read of the loans row
followed, after validation against that stale snapshot, by separately
committed writes (ledger INSERT, total_invested_amount UPDATE, and the
conditional state UPDATE): nothing serializes two calls on the same loan.
The small-step relation below exposes exactly that structure: a call first
takes its snapshot of the loans row, and only later commits the writes
computed from the snapshot.  The validation guard is the snapshot-based
check of InvestInLoan; a call may also drop out at any time, which covers
every rejection path (wrong state, non-positive amount, over capacity,
duplicate investor) - allowing strictly more interleavings than the Go
code can produce, so a safety property proved over all traces of this
relation holds for the code. -/

/-- An in-flight InvestInLoan call: its argument row plus the snapshot of
the loans row it has read, if it has read it yet. -/
structure PendingInvest where
  investorID : Nat
  amount : ℚ
  snapshot : Option Loan
deriving DecidableEq, Repr

/-- The shared state seen by the concurrent calls: the loans row of the one
loan under contention and its ledger rows, plus the in-flight calls. -/
structure ConcState where
  loan : Loan
  pending : List PendingInvest
  ledger : List LoanInvestment
deriving DecidableEq, Repr

/-- The validations InvestInLoan runs against the loans row it read:
state approved, positive amount, amount at most the remaining principal. -/
def investChecksPass (snap : Loan) (amount : ℚ) : Prop :=
  snap.currentState = .approved ∧ 0 < amount ∧
    amount ≤ snap.principalAmount - snap.totalInvestedAmount

instance (snap : Loan) (amount : ℚ) : Decidable (investChecksPass snap amount) := by
  unfold investChecksPass
  infer_instance

/-- One scheduler step of the interleaved execution. -/
inductive InvestStep : ConcState → ConcState → Prop where
  | read (loan : Loan) (ledger : List LoanInvestment) (pre post : List PendingInvest)
      (c : PendingInvest) (hc : c.snapshot = none) :
      InvestStep ⟨loan, pre ++ c :: post, ledger⟩
        ⟨loan, pre ++ { c with snapshot := some loan } :: post, ledger⟩
  | commit (loan : Loan) (ledger : List LoanInvestment) (pre post : List PendingInvest)
      (c : PendingInvest) (snap : Loan) (hc : c.snapshot = some snap)
      (hok : investChecksPass snap c.amount) :
      InvestStep ⟨loan, pre ++ c :: post, ledger⟩
        ⟨{ loan with
             totalInvestedAmount := snap.totalInvestedAmount + c.amount,
             currentState :=
               if snap.principalAmount ≤ snap.totalInvestedAmount + c.amount then .invested
               else loan.currentState },
          pre ++ post,
          ledger ++ [⟨loan.id, c.investorID, c.amount⟩]⟩
  | giveup (loan : Loan) (ledger : List LoanInvestment) (pre post : List PendingInvest)
      (c : PendingInvest) :
      InvestStep ⟨loan, pre ++ c :: post, ledger⟩ ⟨loan, pre ++ post, ledger⟩

/-- Any interleaving: the reflexive-transitive closure of the steps. -/
def InvestReach : ConcState → ConcState → Prop :=
  Relation.ReflTransGen InvestStep

/- ## Basic store lemmas -/

theorem find?_map_pred {α : Type} (g : α → α) (p : α → Bool) (hp : ∀ a, p (g a) = p a)
    (xs : List α) : (xs.map g).find? p = (xs.find? p).map g := by
  induction xs with
  | nil => rfl
  | cons a xs ih =>
    cases h : p a with
    | true =>
      rw [List.map_cons, List.find?_cons_of_pos _ (by rw [hp a]; exact h),
        List.find?_cons_of_pos _ h]
      rfl
    | false =>
      rw [List.map_cons, List.find?_cons_of_neg _ (by rw [hp a, h]; simp),
        List.find?_cons_of_neg _ (by rw [h]; simp), ih]

theorem loans_investmentRepoCreate (db : EngineState) (inv : LoanInvestment) :
    (investmentRepoCreate db inv).loans = db.loans := rfl

theorem loans_historyRepoCreate (db : EngineState) (h : LoanStateHistory) :
    (historyRepoCreate db h).loans = db.loans := rfl

theorem loans_approvalRepoCreate (db : EngineState) (a : LoanApproval) :
    (approvalRepoCreate db a).loans = db.loans := rfl

theorem loans_disbursementRepoCreate (db : EngineState) (d : LoanDisbursement) :
    (disbursementRepoCreate db d).loans = db.loans := rfl

theorem investments_updateLoanRow (db : EngineState) (id : Nat) (f : Loan → Loan) :
    (updateLoanRow db id f).investments = db.investments := rfl

theorem investments_historyRepoCreate (db : EngineState) (h : LoanStateHistory) :
    (historyRepoCreate db h).investments = db.investments := rfl

theorem investments_approvalRepoCreate (db : EngineState) (a : LoanApproval) :
    (approvalRepoCreate db a).investments = db.investments := rfl

theorem investments_disbursementRepoCreate (db : EngineState) (d : LoanDisbursement) :
    (disbursementRepoCreate db d).investments = db.investments := rfl

theorem stateHistory_updateLoanRow (db : EngineState) (id : Nat) (f : Loan → Loan) :
    (updateLoanRow db id f).stateHistory = db.stateHistory := rfl

theorem stateHistory_investmentRepoCreate (db : EngineState) (inv : LoanInvestment) :
    (investmentRepoCreate db inv).stateHistory = db.stateHistory := rfl

theorem stateHistory_approvalRepoCreate (db : EngineState) (a : LoanApproval) :
    (approvalRepoCreate db a).stateHistory = db.stateHistory := rfl

theorem stateHistory_disbursementRepoCreate (db : EngineState) (d : LoanDisbursement) :
    (disbursementRepoCreate db d).stateHistory = db.stateHistory := rfl

theorem getByID_updateLoanRow (db : EngineState) (lid tid : Nat) (f : Loan → Loan)
    (hf : ∀ l, (f l).id = l.id) :
    loanRepoGetByID (updateLoanRow db lid f) tid =
      (loanRepoGetByID db tid).map (fun l => if l.id == lid then f l else l) := by
  unfold loanRepoGetByID updateLoanRow
  refine find?_map_pred _ _ (fun a => ?_) db.loans
  by_cases h : (a.id == lid) = true <;> simp [h, hf]

theorem getByID_updateLoanRow_self (db : EngineState) (lid : Nat) (f : Loan → Loan)
    (hf : ∀ l, (f l).id = l.id) :
    loanRepoGetByID (updateLoanRow db lid f) lid = (loanRepoGetByID db lid).map f := by
  rw [getByID_updateLoanRow db lid lid f hf]
  cases hfind : loanRepoGetByID db lid with
  | none => rfl
  | some l =>
    unfold loanRepoGetByID at hfind
    have hl := List.find?_some hfind
    simp only at hl
    simp only [beq_iff_eq] at hl
    simp [hl]

theorem getByID_updateLoanRow_other (db : EngineState) (lid tid : Nat) (f : Loan → Loan)
    (hf : ∀ l, (f l).id = l.id) (hne : tid ≠ lid) :
    loanRepoGetByID (updateLoanRow db lid f) tid = loanRepoGetByID db tid := by
  rw [getByID_updateLoanRow db lid tid f hf]
  cases hfind : loanRepoGetByID db tid with
  | none => rfl
  | some l =>
    unfold loanRepoGetByID at hfind
    have hl := List.find?_some hfind
    simp only at hl
    have hne2 : ¬l.id = lid := by
      simp only [beq_iff_eq] at hl
      omega
    simp [hne2]

theorem investmentsFor_create (db : EngineState) (row : LoanInvestment) (lid : Nat) :
    investmentsFor (investmentRepoCreate db row) lid =
      investmentsFor db lid ++ if (row.loanID == lid) then [row] else [] := by
  unfold investmentsFor investmentRepoCreate
  simp [List.filter_append, List.filter_cons]

theorem historyFor_create (db : EngineState) (rec : LoanStateHistory) (lid : Nat) :
    historyFor (historyRepoCreate db rec) lid =
      historyFor db lid ++ if (rec.loanID == lid) then [rec] else [] := by
  unfold historyFor historyRepoCreate
  simp [List.filter_append, List.filter_cons]

theorem ledgerSum_create (db : EngineState) (row : LoanInvestment) (lid : Nat)
    (h : row.loanID = lid) :
    investmentRepoGetTotalInvestedAmountByLoan (investmentRepoCreate db row) lid =
      investmentRepoGetTotalInvestedAmountByLoan db lid + row.investmentAmount := by
  unfold investmentRepoGetTotalInvestedAmountByLoan
  rw [investmentsFor_create]
  simp [h]

theorem ledgerSum_create_other (db : EngineState) (row : LoanInvestment) (lid : Nat)
    (h : ¬row.loanID = lid) :
    investmentRepoGetTotalInvestedAmountByLoan (investmentRepoCreate db row) lid =
      investmentRepoGetTotalInvestedAmountByLoan db lid := by
  unfold investmentRepoGetTotalInvestedAmountByLoan
  rw [investmentsFor_create]
  simp [h]

theorem getByID_updateState_self (db : EngineState) (lid : Nat) (s : LoanState) :
    loanRepoGetByID (loanRepoUpdateState db lid s) lid =
      (loanRepoGetByID db lid).map (fun l => { l with currentState := s }) := by
  unfold loanRepoUpdateState
  exact getByID_updateLoanRow_self db lid _ (fun l => rfl)

theorem getByID_updateState_other (db : EngineState) (lid tid : Nat) (s : LoanState)
    (hne : tid ≠ lid) :
    loanRepoGetByID (loanRepoUpdateState db lid s) tid = loanRepoGetByID db tid := by
  unfold loanRepoUpdateState
  exact getByID_updateLoanRow_other db lid tid _ (fun l => rfl) hne

theorem getByID_updateTotal_self (db : EngineState) (lid : Nat) (amt : ℚ) :
    loanRepoGetByID (loanRepoUpdateTotalInvestedAmount db lid amt) lid =
      (loanRepoGetByID db lid).map (fun l => { l with totalInvestedAmount := amt }) := by
  unfold loanRepoUpdateTotalInvestedAmount
  exact getByID_updateLoanRow_self db lid _ (fun l => rfl)

theorem getByID_updateTotal_other (db : EngineState) (lid tid : Nat) (amt : ℚ)
    (hne : tid ≠ lid) :
    loanRepoGetByID (loanRepoUpdateTotalInvestedAmount db lid amt) tid =
      loanRepoGetByID db tid := by
  unfold loanRepoUpdateTotalInvestedAmount
  exact getByID_updateLoanRow_other db lid tid _ (fun l => rfl) hne

theorem getByID_historyRepoCreate (db : EngineState) (rec : LoanStateHistory) (tid : Nat) :
    loanRepoGetByID (historyRepoCreate db rec) tid = loanRepoGetByID db tid := rfl

theorem getByID_approvalRepoCreate (db : EngineState) (a : LoanApproval) (tid : Nat) :
    loanRepoGetByID (approvalRepoCreate db a) tid = loanRepoGetByID db tid := rfl

theorem getByID_disbursementRepoCreate (db : EngineState) (d : LoanDisbursement) (tid : Nat) :
    loanRepoGetByID (disbursementRepoCreate db d) tid = loanRepoGetByID db tid := rfl

theorem getByID_investmentRepoCreate (db : EngineState) (inv : LoanInvestment) (tid : Nat) :
    loanRepoGetByID (investmentRepoCreate db inv) tid = loanRepoGetByID db tid := rfl

theorem investmentsFor_updateLoanRow (db : EngineState) (id : Nat) (f : Loan → Loan)
    (lid : Nat) : investmentsFor (updateLoanRow db id f) lid = investmentsFor db lid := rfl

theorem investmentsFor_historyRepoCreate (db : EngineState) (rec : LoanStateHistory)
    (lid : Nat) : investmentsFor (historyRepoCreate db rec) lid = investmentsFor db lid := rfl

theorem investmentsFor_approvalRepoCreate (db : EngineState) (a : LoanApproval)
    (lid : Nat) : investmentsFor (approvalRepoCreate db a) lid = investmentsFor db lid := rfl

theorem investmentsFor_disbursementRepoCreate (db : EngineState) (d : LoanDisbursement)
    (lid : Nat) : investmentsFor (disbursementRepoCreate db d) lid = investmentsFor db lid := rfl

theorem historyFor_updateLoanRow (db : EngineState) (id : Nat) (f : Loan → Loan)
    (lid : Nat) : historyFor (updateLoanRow db id f) lid = historyFor db lid := rfl

theorem historyFor_approvalRepoCreate (db : EngineState) (a : LoanApproval)
    (lid : Nat) : historyFor (approvalRepoCreate db a) lid = historyFor db lid := rfl

theorem historyFor_investmentRepoCreate (db : EngineState) (inv : LoanInvestment)
    (lid : Nat) : historyFor (investmentRepoCreate db inv) lid = historyFor db lid := rfl

theorem historyFor_disbursementRepoCreate (db : EngineState) (d : LoanDisbursement)
    (lid : Nat) : historyFor (disbursementRepoCreate db d) lid = historyFor db lid := rfl

theorem ledgerSum_updateLoanRow (db : EngineState) (id : Nat) (f : Loan → Loan) (lid : Nat) :
    investmentRepoGetTotalInvestedAmountByLoan (updateLoanRow db id f) lid =
      investmentRepoGetTotalInvestedAmountByLoan db lid := rfl

theorem ledgerSum_historyRepoCreate (db : EngineState) (rec : LoanStateHistory) (lid : Nat) :
    investmentRepoGetTotalInvestedAmountByLoan (historyRepoCreate db rec) lid =
      investmentRepoGetTotalInvestedAmountByLoan db lid := rfl

theorem ledgerSum_approvalRepoCreate (db : EngineState) (a : LoanApproval) (lid : Nat) :
    investmentRepoGetTotalInvestedAmountByLoan (approvalRepoCreate db a) lid =
      investmentRepoGetTotalInvestedAmountByLoan db lid := rfl

theorem ledgerSum_disbursementRepoCreate (db : EngineState) (d : LoanDisbursement) (lid : Nat) :
    investmentRepoGetTotalInvestedAmountByLoan (disbursementRepoCreate db d) lid =
      investmentRepoGetTotalInvestedAmountByLoan db lid := rfl

/- ## Outcome characterizations of the three mutating operations -/

theorem approveLoan_cases (db : EngineState) (lid : Nat) (a : LoanApproval) :
    (∃ e, ApproveLoan db lid a = (db, some e)) ∨
    (∃ loan, loanRepoGetByID db lid = some loan ∧ loan.currentState = .proposed ∧
      ApproveLoan db lid a =
        (historyRepoCreate
          (loanRepoUpdateState (approvalRepoCreate db { a with loanID := lid }) lid .approved)
          ⟨lid, loan.currentState, .approved, "Loan approved by staff"⟩, none)) := by
  unfold ApproveLoan
  cases hget : loanRepoGetByID db lid with
  | none => exact .inl ⟨_, rfl⟩
  | some loan =>
    by_cases h1 : loan.currentState = .proposed
    · by_cases h2 : a.fieldValidatorEmployeeID = ""
      · exact .inl ⟨.fieldValidatorEmployeeIDRequired, by simp [h1, h2]⟩
      · by_cases h3 : a.proofImageUrl = ""
        · exact .inl ⟨.proofImageUrlRequired, by simp [h1, h2, h3]⟩
        · exact .inr ⟨loan, rfl, h1, by simp [h1, h2, h3]⟩
    · exact .inl ⟨.mustBeProposedToApprove, by simp [h1]⟩

theorem investInLoan_cases (db : EngineState) (lid : Nat) (inv : LoanInvestment) :
    (∃ e, InvestInLoan db lid inv = (db, some e)) ∨
    (∃ loan, loanRepoGetByID db lid = some loan ∧ loan.currentState = .approved ∧
      0 < inv.investmentAmount ∧
      inv.investmentAmount ≤ loan.principalAmount - loan.totalInvestedAmount ∧
      investmentRepoGetByLoanAndInvestor db lid inv.investorID = none ∧
      ((loan.totalInvestedAmount + inv.investmentAmount < loan.principalAmount ∧
        InvestInLoan db lid inv =
          (loanRepoUpdateTotalInvestedAmount
            (investmentRepoCreate db { inv with loanID := lid }) lid
            (loan.totalInvestedAmount + inv.investmentAmount), none)) ∨
       (loan.principalAmount ≤ loan.totalInvestedAmount + inv.investmentAmount ∧
        InvestInLoan db lid inv =
          (historyRepoCreate
            (loanRepoUpdateState
              (loanRepoUpdateTotalInvestedAmount
                (investmentRepoCreate db { inv with loanID := lid }) lid
                (loan.totalInvestedAmount + inv.investmentAmount)) lid .invested)
            ⟨lid, loan.currentState, .invested, "Loan fully invested"⟩, none)))) := by
  unfold InvestInLoan
  cases hget : loanRepoGetByID db lid with
  | none => exact .inl ⟨_, rfl⟩
  | some loan =>
    by_cases h1 : loan.currentState = .approved
    · by_cases h2 : inv.investmentAmount ≤ 0
      · exact .inl ⟨.investmentAmountNotPositive, by simp [h1, h2]⟩
      · by_cases h3 : inv.investmentAmount > loan.principalAmount - loan.totalInvestedAmount
        · exact .inl ⟨.exceedsRemainingPrincipal, by simp [h1, h2, h3]⟩
        · cases hdup : investmentRepoGetByLoanAndInvestor db lid inv.investorID with
          | some old => exact .inl ⟨.investorAlreadyInvested, by simp [h1, h2, h3, hdup]⟩
          | none =>
            by_cases h4 : loan.totalInvestedAmount + inv.investmentAmount ≥ loan.principalAmount
            · refine .inr ⟨loan, rfl, h1, by linarith [not_le.mp h2], not_lt.mp h3, rfl,
                .inr ⟨h4, ?_⟩⟩
              simp [h1, h2, h3, hdup, h4]
            · refine .inr ⟨loan, rfl, h1, by linarith [not_le.mp h2], not_lt.mp h3, rfl,
                .inl ⟨not_le.mp h4, ?_⟩⟩
              simp [h1, h2, h3, hdup, h4]
    · exact .inl ⟨.mustBeApprovedToInvest, by simp [h1]⟩

theorem disburseLoan_cases (db : EngineState) (lid : Nat) (d : LoanDisbursement) :
    (∃ e, DisburseLoan db lid d = (db, some e)) ∨
    (∃ loan, loanRepoGetByID db lid = some loan ∧ loan.currentState = .invested ∧
      loan.totalInvestedAmount = loan.principalAmount ∧
      DisburseLoan db lid d =
        (historyRepoCreate
          (loanRepoUpdateState (disbursementRepoCreate db { d with loanID := lid })
            lid .disbursed)
          ⟨lid, loan.currentState, .disbursed, "Loan disbursed to borrower"⟩, none)) := by
  unfold DisburseLoan
  cases hget : loanRepoGetByID db lid with
  | none => exact .inl ⟨_, rfl⟩
  | some loan =>
    by_cases h1 : loan.currentState = .invested
    · by_cases h2 : loan.totalInvestedAmount = loan.principalAmount
      · by_cases h3 : d.fieldOfficerEmployeeID = ""
        · exact .inl ⟨.fieldOfficerEmployeeIDRequired, by simp [h1, h2, h3]⟩
        · by_cases h4 : d.agreementLetterSignedUrl = ""
          · exact .inl ⟨.agreementLetterSignedUrlRequired, by simp [h1, h2, h3, h4]⟩
          · exact .inr ⟨loan, rfl, h1, h2, by simp [h1, h2, h3, h4]⟩
      · exact .inl ⟨.totalMismatch, by simp [h1, h2]⟩
    · exact .inl ⟨.mustBeInvestedToDisburse, by simp [h1]⟩

/- ## The per-loan reachability invariant -/

theorem not_mem_investor_of_find_none (db : EngineState) (lid iid : Nat)
    (h : investmentRepoGetByLoanAndInvestor db lid iid = none) :
    ∀ x ∈ investmentsFor db lid, x.investorID ≠ iid := by
  intro x hx
  unfold investmentRepoGetByLoanAndInvestor at h
  rw [List.find?_eq_none] at h
  have hx2 := List.mem_filter.mp hx
  have hnx := h x hx2.1
  simp only [Bool.and_eq_true, beq_iff_eq, not_and] at hnx
  have hxl : x.loanID = lid := by simpa using hx2.2
  exact hnx hxl

theorem approveLoan_preserves_inv (db : EngineState) (lid2 : Nat) (a : LoanApproval)
    (lid : Nat) (h : LoanInv db lid) : LoanInv (ApproveLoan db lid2 a).1 lid := by
  rcases approveLoan_cases db lid2 a with ⟨e, he⟩ | ⟨loan, hget, hstate, heq⟩
  · rw [he]; exact h
  · rw [heq]
    obtain ⟨loanh, hfound, htot, hle, hhist, huniq⟩ := h
    by_cases hlid : lid2 = lid
    · subst hlid
      rw [hfound] at hget
      have hl : loanh = loan := Option.some.inj hget
      subst hl
      refine ⟨{ loanh with currentState := .approved }, ?_, htot, hle, ?_, huniq⟩
      · rw [getByID_historyRepoCreate, getByID_updateState_self, getByID_approvalRepoCreate,
          hfound]
        rfl
      · rw [historyFor_create]
        have hfr : historyFor
            (loanRepoUpdateState (approvalRepoCreate db { a with loanID := lid2 }) lid2 .approved)
            lid2 = historyFor db lid2 := rfl
        rw [hfr, hhist, hstate]
        simp [expectedHistory, approveRecord]
    · refine ⟨loanh, ?_, htot, hle, ?_, huniq⟩
      · rw [getByID_historyRepoCreate,
          getByID_updateState_other _ _ _ _ (fun hx => hlid hx.symm), getByID_approvalRepoCreate]
        exact hfound
      · rw [historyFor_create]
        simp only [show (lid2 == lid) = false from beq_eq_false_iff_ne.mpr hlid]
        simpa using hhist

theorem investInLoan_preserves_inv (db : EngineState) (lid2 : Nat) (inv : LoanInvestment)
    (lid : Nat) (h : LoanInv db lid) : LoanInv (InvestInLoan db lid2 inv).1 lid := by
  rcases investInLoan_cases db lid2 inv with
    ⟨e, he⟩ | ⟨loan, hget, hstate, hpos, hcap, hdup, hout⟩
  · rw [he]; exact h
  · obtain ⟨loanh, hfound, htot, hle, hhist, huniq⟩ := h
    by_cases hlid : lid2 = lid
    · subst hlid
      rw [hfound] at hget
      have hl : loanh = loan := Option.some.inj hget
      subst hl
      have hcross : distinctInvestors
          (investmentsFor db lid2 ++ [{ inv with loanID := lid2 }]) := by
        unfold distinctInvestors
        rw [List.pairwise_append]
        refine ⟨huniq, List.pairwise_singleton _ _, ?_⟩
        intro x hx y hy
        have hy2 : y = { inv with loanID := lid2 } := List.mem_singleton.mp hy
        subst hy2
        exact not_mem_investor_of_find_none db lid2 inv.investorID hdup x hx
      have hsum : investmentRepoGetTotalInvestedAmountByLoan
            (investmentRepoCreate db { inv with loanID := lid2 }) lid2 =
          investmentRepoGetTotalInvestedAmountByLoan db lid2 + inv.investmentAmount :=
        ledgerSum_create db _ lid2 rfl
      have hinvFor : investmentsFor
            (investmentRepoCreate db { inv with loanID := lid2 }) lid2 =
          investmentsFor db lid2 ++ [{ inv with loanID := lid2 }] := by
        rw [investmentsFor_create]
        simp
      rcases hout with ⟨hlt, heq⟩ | ⟨hge, heq⟩
      · rw [heq]
        refine ⟨{ loanh with
            totalInvestedAmount := loanh.totalInvestedAmount + inv.investmentAmount },
          ?_, ?_, ?_, ?_, ?_⟩
        · rw [getByID_updateTotal_self, getByID_investmentRepoCreate, hfound]
          rfl
        · show loanh.totalInvestedAmount + inv.investmentAmount = _
          rw [show investmentRepoGetTotalInvestedAmountByLoan
              (loanRepoUpdateTotalInvestedAmount
                (investmentRepoCreate db { inv with loanID := lid2 }) lid2
                (loanh.totalInvestedAmount + inv.investmentAmount)) lid2 =
              investmentRepoGetTotalInvestedAmountByLoan
                (investmentRepoCreate db { inv with loanID := lid2 }) lid2 from rfl, hsum, htot]
        · show loanh.totalInvestedAmount + inv.investmentAmount ≤ loanh.principalAmount
          linarith
        · show historyFor db lid2 = expectedHistory lid2 loanh.currentState
          exact hhist
        · show distinctInvestors (investmentsFor
            (investmentRepoCreate db { inv with loanID := lid2 }) lid2)
          rw [hinvFor]
          exact hcross
      · rw [heq]
        refine ⟨{ loanh with
            totalInvestedAmount := loanh.totalInvestedAmount + inv.investmentAmount,
            currentState := .invested }, ?_, ?_, ?_, ?_, ?_⟩
        · rw [getByID_historyRepoCreate, getByID_updateState_self, getByID_updateTotal_self,
            getByID_investmentRepoCreate, hfound]
          rfl
        · show loanh.totalInvestedAmount + inv.investmentAmount = _
          rw [show investmentRepoGetTotalInvestedAmountByLoan
              (historyRepoCreate
                (loanRepoUpdateState
                  (loanRepoUpdateTotalInvestedAmount
                    (investmentRepoCreate db { inv with loanID := lid2 }) lid2
                    (loanh.totalInvestedAmount + inv.investmentAmount)) lid2 .invested)
                ⟨lid2, loanh.currentState, .invested, "Loan fully invested"⟩) lid2 =
              investmentRepoGetTotalInvestedAmountByLoan
                (investmentRepoCreate db { inv with loanID := lid2 }) lid2 from rfl, hsum, htot]
        · show loanh.totalInvestedAmount + inv.investmentAmount ≤ loanh.principalAmount
          linarith
        · rw [historyFor_create]
          have hfr : historyFor
              (loanRepoUpdateState
                (loanRepoUpdateTotalInvestedAmount
                  (investmentRepoCreate db { inv with loanID := lid2 }) lid2
                  (loanh.totalInvestedAmount + inv.investmentAmount)) lid2 .invested) lid2 =
              historyFor db lid2 := rfl
          rw [hfr, hhist, hstate]
          simp [expectedHistory, approveRecord, investRecord]
        · show distinctInvestors (investmentsFor
            (investmentRepoCreate db { inv with loanID := lid2 }) lid2)
          rw [hinvFor]
          exact hcross
    · have hsum2 : investmentRepoGetTotalInvestedAmountByLoan
            (investmentRepoCreate db { inv with loanID := lid2 }) lid =
          investmentRepoGetTotalInvestedAmountByLoan db lid :=
        ledgerSum_create_other db _ lid (by simpa using hlid)
      have hinvFor2 : investmentsFor
            (investmentRepoCreate db { inv with loanID := lid2 }) lid =
          investmentsFor db lid := by
        rw [investmentsFor_create]
        simp [show (lid2 == lid) = false from beq_eq_false_iff_ne.mpr hlid]
      rcases hout with ⟨hlt, heq⟩ | ⟨hge, heq⟩
      · rw [heq]
        refine ⟨loanh, ?_, ?_, hle, hhist, ?_⟩
        · rw [getByID_updateTotal_other _ _ _ _ (fun hx => hlid hx.symm),
            getByID_investmentRepoCreate]
          exact hfound
        · show loanh.totalInvestedAmount = _
          rw [show investmentRepoGetTotalInvestedAmountByLoan
              (loanRepoUpdateTotalInvestedAmount
                (investmentRepoCreate db { inv with loanID := lid2 }) lid2
                (loan.totalInvestedAmount + inv.investmentAmount)) lid =
              investmentRepoGetTotalInvestedAmountByLoan
                (investmentRepoCreate db { inv with loanID := lid2 }) lid from rfl, hsum2]
          exact htot
        · show distinctInvestors (investmentsFor
            (investmentRepoCreate db { inv with loanID := lid2 }) lid)
          rw [hinvFor2]
          exact huniq
      · rw [heq]
        refine ⟨loanh, ?_, ?_, hle, ?_, ?_⟩
        · rw [getByID_historyRepoCreate,
            getByID_updateState_other _ _ _ _ (fun hx => hlid hx.symm),
            getByID_updateTotal_other _ _ _ _ (fun hx => hlid hx.symm),
            getByID_investmentRepoCreate]
          exact hfound
        · show loanh.totalInvestedAmount = _
          rw [show investmentRepoGetTotalInvestedAmountByLoan
              (historyRepoCreate
                (loanRepoUpdateState
                  (loanRepoUpdateTotalInvestedAmount
                    (investmentRepoCreate db { inv with loanID := lid2 }) lid2
                    (loan.totalInvestedAmount + inv.investmentAmount)) lid2 .invested)
                ⟨lid2, loan.currentState, .invested, "Loan fully invested"⟩) lid =
              investmentRepoGetTotalInvestedAmountByLoan
                (investmentRepoCreate db { inv with loanID := lid2 }) lid from rfl, hsum2]
          exact htot
        · rw [historyFor_create]
          simp only [show (lid2 == lid) = false from beq_eq_false_iff_ne.mpr hlid]
          simpa using hhist
        · show distinctInvestors (investmentsFor
            (investmentRepoCreate db { inv with loanID := lid2 }) lid)
          rw [hinvFor2]
          exact huniq

theorem disburseLoan_preserves_inv (db : EngineState) (lid2 : Nat) (d : LoanDisbursement)
    (lid : Nat) (h : LoanInv db lid) : LoanInv (DisburseLoan db lid2 d).1 lid := by
  rcases disburseLoan_cases db lid2 d with ⟨e, he⟩ | ⟨loan, hget, hstate, hfull, heq⟩
  · rw [he]; exact h
  · rw [heq]
    obtain ⟨loanh, hfound, htot, hle, hhist, huniq⟩ := h
    by_cases hlid : lid2 = lid
    · subst hlid
      rw [hfound] at hget
      have hl : loanh = loan := Option.some.inj hget
      subst hl
      refine ⟨{ loanh with currentState := .disbursed }, ?_, htot, hle, ?_, huniq⟩
      · rw [getByID_historyRepoCreate, getByID_updateState_self,
          getByID_disbursementRepoCreate, hfound]
        rfl
      · rw [historyFor_create]
        have hfr : historyFor
            (loanRepoUpdateState (disbursementRepoCreate db { d with loanID := lid2 })
              lid2 .disbursed) lid2 = historyFor db lid2 := rfl
        rw [hfr, hhist, hstate]
        simp [expectedHistory, approveRecord, investRecord, disburseRecord]
    · refine ⟨loanh, ?_, htot, hle, ?_, huniq⟩
      · rw [getByID_historyRepoCreate,
          getByID_updateState_other _ _ _ _ (fun hx => hlid hx.symm),
          getByID_disbursementRepoCreate]
        exact hfound
      · rw [historyFor_create]
        simp only [show (lid2 == lid) = false from beq_eq_false_iff_ne.mpr hlid]
        simpa using hhist

theorem applyOp_preserves_inv (db : EngineState) (op : Op) (lid : Nat)
    (h : LoanInv db lid) : LoanInv (applyOp db op).1 lid := by
  cases op with
  | approve lid2 a => exact approveLoan_preserves_inv db lid2 a lid h
  | invest lid2 inv => exact investInLoan_preserves_inv db lid2 inv lid h
  | disburse lid2 d => exact disburseLoan_preserves_inv db lid2 d lid h

theorem runOps_preserves_inv (ops : List Op) (db : EngineState) (lid : Nat)
    (h : LoanInv db lid) : LoanInv (runOps db ops) lid := by
  induction ops generalizing db with
  | nil => exact h
  | cons op ops ih => exact ih _ (applyOp_preserves_inv db op lid h)

theorem createLoan_success (db0 : EngineState) (l : Loan) (db1 : EngineState)
    (hcreate : CreateLoan db0 l = (db1, none)) :
    0 < l.principalAmount ∧
      db1 = loanRepoCreate db0 { l with currentState := .proposed, totalInvestedAmount := 0 } := by
  unfold CreateLoan at hcreate
  split_ifs at hcreate with h1 h2 h3
  · simp at hcreate
  · simp at hcreate
  · simp at hcreate
  · obtain ⟨hdb, -⟩ := Prod.mk.inj hcreate
    exact ⟨not_le.mp h1, hdb.symm⟩

theorem createLoan_establishes_inv (db0 : EngineState) (l : Loan) (db1 : EngineState)
    (hfreshLoan : loanRepoGetByID db0 l.id = none)
    (hfreshInv : investmentsFor db0 l.id = [])
    (hfreshHist : historyFor db0 l.id = [])
    (hcreate : CreateLoan db0 l = (db1, none)) :
    LoanInv db1 l.id := by
  obtain ⟨hpos, rfl⟩ := createLoan_success db0 l db1 hcreate
  refine ⟨{ l with currentState := .proposed, totalInvestedAmount := 0 }, ?_, ?_, ?_, ?_, ?_⟩
  · unfold loanRepoGetByID loanRepoCreate
    unfold loanRepoGetByID at hfreshLoan
    rw [List.find?_append, hfreshLoan]
    simp
  · show (0 : ℚ) = _
    unfold investmentRepoGetTotalInvestedAmountByLoan
    rw [show investmentsFor
        (loanRepoCreate db0 { l with currentState := .proposed, totalInvestedAmount := 0 }) l.id =
        investmentsFor db0 l.id from rfl, hfreshInv]
    rfl
  · show (0 : ℚ) ≤ l.principalAmount
    exact le_of_lt hpos
  · show historyFor db0 l.id = _
    rw [hfreshHist]
    rfl
  · show distinctInvestors (investmentsFor db0 l.id)
    rw [hfreshInv]
    exact List.Pairwise.nil

/- ## Direct characterizations used by several claims -/

theorem invest_wrong_state (db : EngineState) (lid : Nat) (inv : LoanInvestment) (loan : Loan)
    (hget : loanRepoGetByID db lid = some loan) (hne : loan.currentState ≠ .approved) :
    InvestInLoan db lid inv = (db, some .mustBeApprovedToInvest) := by
  unfold InvestInLoan
  rw [hget]
  simp [hne]

theorem invest_nonpositive (db : EngineState) (lid : Nat) (inv : LoanInvestment) (loan : Loan)
    (hget : loanRepoGetByID db lid = some loan) (hstate : loan.currentState = .approved)
    (hle : inv.investmentAmount ≤ 0) :
    InvestInLoan db lid inv = (db, some .investmentAmountNotPositive) := by
  unfold InvestInLoan
  rw [hget]
  simp [hstate, hle]

theorem invest_over_capacity (db : EngineState) (lid : Nat) (inv : LoanInvestment) (loan : Loan)
    (hget : loanRepoGetByID db lid = some loan) (hstate : loan.currentState = .approved)
    (hpos : 0 < inv.investmentAmount)
    (hover : loan.principalAmount - loan.totalInvestedAmount < inv.investmentAmount) :
    InvestInLoan db lid inv = (db, some .exceedsRemainingPrincipal) := by
  unfold InvestInLoan
  rw [hget]
  simp [hstate, not_le.mpr hpos, hover]

theorem invest_duplicate_rejected (db : EngineState) (lid : Nat) (inv : LoanInvestment)
    (loan : Loan) (y : LoanInvestment)
    (hget : loanRepoGetByID db lid = some loan) (hstate : loan.currentState = .approved)
    (hpos : 0 < inv.investmentAmount)
    (hcap : inv.investmentAmount ≤ loan.principalAmount - loan.totalInvestedAmount)
    (hdup : investmentRepoGetByLoanAndInvestor db lid inv.investorID = some y) :
    InvestInLoan db lid inv = (db, some .investorAlreadyInvested) := by
  unfold InvestInLoan
  rw [hget, hdup]
  simp [hstate, not_le.mpr hpos, not_lt.mpr hcap]

theorem approve_success_iff (db : EngineState) (lid : Nat) (a : LoanApproval) :
    (ApproveLoan db lid a).2 = none ↔
      ((∃ loan, loanRepoGetByID db lid = some loan ∧ loan.currentState = .proposed) ∧
        a.fieldValidatorEmployeeID ≠ "" ∧ a.proofImageUrl ≠ "") := by
  unfold ApproveLoan
  cases hget : loanRepoGetByID db lid with
  | none => simp
  | some loan =>
    by_cases h1 : loan.currentState = .proposed
    · by_cases h2 : a.fieldValidatorEmployeeID = ""
      · simp [h1, h2]
      · by_cases h3 : a.proofImageUrl = ""
        · simp [h1, h2, h3]
        · simp [h1, h2, h3]
    · simp [h1]

theorem approve_wrong_state (db : EngineState) (lid : Nat) (a : LoanApproval) (loan : Loan)
    (hget : loanRepoGetByID db lid = some loan) (hne : loan.currentState ≠ .proposed) :
    ApproveLoan db lid a = (db, some .mustBeProposedToApprove) := by
  unfold ApproveLoan
  rw [hget]
  simp [hne]

theorem approve_success_found (db : EngineState) (lid : Nat) (a : LoanApproval)
    (h : (ApproveLoan db lid a).2 = none) :
    ∃ loan, loanRepoGetByID db lid = some loan ∧ loan.currentState = .proposed ∧
      loanRepoGetByID (ApproveLoan db lid a).1 lid =
        some { loan with currentState := .approved } ∧
      historyFor (ApproveLoan db lid a).1 lid = historyFor db lid ++ [approveRecord lid] := by
  rcases approveLoan_cases db lid a with ⟨e, he⟩ | ⟨loan, hget, hstate, heq⟩
  · rw [he] at h
    simp at h
  · refine ⟨loan, hget, hstate, ?_, ?_⟩
    · rw [heq, getByID_historyRepoCreate, getByID_updateState_self, getByID_approvalRepoCreate,
        hget]
      rfl
    · rw [heq, historyFor_create]
      have hfr : historyFor
          (loanRepoUpdateState (approvalRepoCreate db { a with loanID := lid }) lid .approved)
          lid = historyFor db lid := rfl
      rw [hfr, hstate]
      simp [approveRecord]

/-- Claim C3: a call to Approve, Invest or Disburse that returns an error
leaves the store exactly as it was before the call.  In this embedding the
repository writes always succeed (persistence is specified as a reliable
store), under which every error return of the three methods happens before
any repository write, so the state they return with an error is the input
state unchanged. -/
theorem C3_error_leaves_state_unchanged :
    (∀ (db : EngineState) (lid : Nat) (a : LoanApproval) (e : ServiceError),
      (ApproveLoan db lid a).2 = some e → (ApproveLoan db lid a).1 = db) ∧
    (∀ (db : EngineState) (lid : Nat) (inv : LoanInvestment) (e : ServiceError),
      (InvestInLoan db lid inv).2 = some e → (InvestInLoan db lid inv).1 = db) ∧
    (∀ (db : EngineState) (lid : Nat) (d : LoanDisbursement) (e : ServiceError),
      (DisburseLoan db lid d).2 = some e → (DisburseLoan db lid d).1 = db) := by
  refine ⟨?_, ?_, ?_⟩
  · intro db lid a e he
    rcases approveLoan_cases db lid a with ⟨e2, h2⟩ | ⟨loan, hget, hstate, h2⟩
    · rw [h2]
    · rw [h2] at he
      simp at he
  · intro db lid inv e he
    rcases investInLoan_cases db lid inv with
      ⟨e2, h2⟩ | ⟨loan, hget, hstate, hpos, hcap, hdup, hout⟩
    · rw [h2]
    · rcases hout with ⟨hlt, h2⟩ | ⟨hge, h2⟩ <;> rw [h2] at he <;> simp at he
  · intro db lid d e he
    rcases disburseLoan_cases db lid d with ⟨e2, h2⟩ | ⟨loan, hget, hstate, hfull, h2⟩
    · rw [h2]
    · rw [h2] at he
      simp at he

/-- Concrete instance of C3: on the empty store all three operations fail
with loanNotFound and return the store unchanged. -/
theorem C3_error_leaves_state_unchanged_witness :
    (ApproveLoan EngineState.empty 1 ⟨1, "EMP001", "proof.jpg"⟩).1 = EngineState.empty ∧
    (InvestInLoan EngineState.empty 1 ⟨1, 2, 5⟩).1 = EngineState.empty ∧
    (DisburseLoan EngineState.empty 1 ⟨1, "EMP002", "signed.pdf"⟩).1 = EngineState.empty :=
  ⟨C3_error_leaves_state_unchanged.1 EngineState.empty 1 ⟨1, "EMP001", "proof.jpg"⟩
      .loanNotFound rfl,
    C3_error_leaves_state_unchanged.2.1 EngineState.empty 1 ⟨1, 2, 5⟩ .loanNotFound rfl,
    C3_error_leaves_state_unchanged.2.2 EngineState.empty 1 ⟨1, "EMP002", "signed.pdf"⟩
      .loanNotFound rfl⟩

/-- Claim C6: ApproveLoan succeeds exactly when the loan exists in phase
proposed and both approval-evidence fields are non-empty; on an existing
loan whose phase is not proposed it fails with the wrong-phase error; and
immediately after a successful Approve a second Approve of the same loan
fails with the wrong-phase error and changes nothing. -/
theorem C6_approve_preconditions_and_idempotence :
    (∀ (db : EngineState) (lid : Nat) (a : LoanApproval),
      (ApproveLoan db lid a).2 = none ↔
        ((∃ loan, loanRepoGetByID db lid = some loan ∧ loan.currentState = .proposed) ∧
          a.fieldValidatorEmployeeID ≠ "" ∧ a.proofImageUrl ≠ "")) ∧
    (∀ (db : EngineState) (lid : Nat) (a : LoanApproval) (loan : Loan),
      loanRepoGetByID db lid = some loan → loan.currentState ≠ .proposed →
      ApproveLoan db lid a = (db, some .mustBeProposedToApprove)) ∧
    (∀ (db : EngineState) (lid : Nat) (a a2 : LoanApproval),
      (ApproveLoan db lid a).2 = none →
      ApproveLoan (ApproveLoan db lid a).1 lid a2 =
        ((ApproveLoan db lid a).1, some .mustBeProposedToApprove)) := by
  refine ⟨approve_success_iff, approve_wrong_state, ?_⟩
  intro db lid a a2 h
  obtain ⟨loan, hget, hstate, hfound2, hhist2⟩ := approve_success_found db lid a h
  exact approve_wrong_state _ lid a2 _ hfound2 (by simp)

/-- Concrete instance of C6: a second Approve on an approved loan returns
the wrong-phase error without touching the store. -/
theorem C6_approve_preconditions_and_idempotence_witness :
    ApproveLoan (ApproveLoan ⟨[⟨1, 1, 100, 10, 10, "url", .proposed, 0⟩], [], [], [], []⟩ 1
        ⟨0, "EMP001", "proof.jpg"⟩).1 1 ⟨0, "EMP001", "proof.jpg"⟩ =
      ((ApproveLoan ⟨[⟨1, 1, 100, 10, 10, "url", .proposed, 0⟩], [], [], [], []⟩ 1
        ⟨0, "EMP001", "proof.jpg"⟩).1, some .mustBeProposedToApprove) :=
  C6_approve_preconditions_and_idempotence.2.2 _ 1 _ _ rfl

/-- Claim C7: on an existing loan DisburseLoan fails with the wrong-phase
error whenever the phase is not invested (in particular from approved),
fails with the total-mismatch error when the phase is invested but the
stored total differs from the principal, fails on empty disbursement
evidence, and otherwise succeeds, setting the phase to disbursed and
appending the disbursal Phase-Transition Record. -/
theorem C7_disburse_behavior :
    (∀ (db : EngineState) (lid : Nat) (d : LoanDisbursement) (loan : Loan),
      loanRepoGetByID db lid = some loan → loan.currentState ≠ .invested →
      DisburseLoan db lid d = (db, some .mustBeInvestedToDisburse)) ∧
    (∀ (db : EngineState) (lid : Nat) (d : LoanDisbursement) (loan : Loan),
      loanRepoGetByID db lid = some loan → loan.currentState = .invested →
      loan.totalInvestedAmount ≠ loan.principalAmount →
      DisburseLoan db lid d = (db, some .totalMismatch)) ∧
    (∀ (db : EngineState) (lid : Nat) (d : LoanDisbursement) (loan : Loan),
      loanRepoGetByID db lid = some loan → loan.currentState = .invested →
      loan.totalInvestedAmount = loan.principalAmount →
      (d.fieldOfficerEmployeeID = "" ∨ d.agreementLetterSignedUrl = "") →
      ∃ e, DisburseLoan db lid d = (db, some e) ∧
        (e = .fieldOfficerEmployeeIDRequired ∨ e = .agreementLetterSignedUrlRequired)) ∧
    (∀ (db : EngineState) (lid : Nat) (d : LoanDisbursement) (loan : Loan),
      loanRepoGetByID db lid = some loan → loan.currentState = .invested →
      loan.totalInvestedAmount = loan.principalAmount →
      d.fieldOfficerEmployeeID ≠ "" → d.agreementLetterSignedUrl ≠ "" →
      (DisburseLoan db lid d).2 = none ∧
      loanRepoGetByID (DisburseLoan db lid d).1 lid =
        some { loan with currentState := .disbursed } ∧
      historyFor (DisburseLoan db lid d).1 lid =
        historyFor db lid ++ [disburseRecord lid]) := by
  refine ⟨?_, ?_, ?_, ?_⟩
  · intro db lid d loan hget hne
    unfold DisburseLoan
    rw [hget]
    simp [hne]
  · intro db lid d loan hget hstate hne
    unfold DisburseLoan
    rw [hget]
    simp [hstate, hne]
  · intro db lid d loan hget hstate htot hev
    by_cases h3 : d.fieldOfficerEmployeeID = ""
    · refine ⟨.fieldOfficerEmployeeIDRequired, ?_, .inl rfl⟩
      unfold DisburseLoan
      rw [hget]
      simp [hstate, htot, h3]
    · have h4 : d.agreementLetterSignedUrl = "" := by
        rcases hev with h | h
        · exact absurd h h3
        · exact h
      refine ⟨.agreementLetterSignedUrlRequired, ?_, .inr rfl⟩
      unfold DisburseLoan
      rw [hget]
      simp [hstate, htot, h3, h4]
  · intro db lid d loan hget hstate htot h3 h4
    have heq : DisburseLoan db lid d =
        (historyRepoCreate
          (loanRepoUpdateState (disbursementRepoCreate db { d with loanID := lid })
            lid .disbursed)
          ⟨lid, loan.currentState, .disbursed, "Loan disbursed to borrower"⟩, none) := by
      unfold DisburseLoan
      rw [hget]
      simp [hstate, htot, h3, h4]
    refine ⟨by rw [heq], ?_, ?_⟩
    · rw [heq, getByID_historyRepoCreate, getByID_updateState_self,
        getByID_disbursementRepoCreate, hget]
      rfl
    · rw [heq, historyFor_create]
      have hfr : historyFor
          (loanRepoUpdateState (disbursementRepoCreate db { d with loanID := lid })
            lid .disbursed) lid = historyFor db lid := rfl
      rw [hfr, hstate]
      simp [disburseRecord]

/-- Concrete instance of C7: disbursing an approved (not yet invested)
loan returns the wrong-phase error; disbursing an invested loan whose
stored total differs from the principal returns the total-mismatch
error. -/
theorem C7_disburse_behavior_witness :
    DisburseLoan ⟨[⟨1, 1, 100, 10, 10, "url", .approved, 40⟩], [], [], [], []⟩ 1
        ⟨0, "EMP002", "signed.pdf"⟩ =
      (⟨[⟨1, 1, 100, 10, 10, "url", .approved, 40⟩], [], [], [], []⟩,
        some .mustBeInvestedToDisburse) ∧
    DisburseLoan ⟨[⟨1, 1, 100, 10, 10, "url", .invested, 40⟩], [], [], [], []⟩ 1
        ⟨0, "EMP002", "signed.pdf"⟩ =
      (⟨[⟨1, 1, 100, 10, 10, "url", .invested, 40⟩], [], [], [], []⟩, some .totalMismatch) :=
  ⟨C7_disburse_behavior.1 _ 1 _ ⟨1, 1, 100, 10, 10, "url", .approved, 40⟩ rfl (by decide),
    C7_disburse_behavior.2.1 _ 1 _ ⟨1, 1, 100, 10, 10, "url", .invested, 40⟩ rfl rfl
      (by norm_num)⟩

/-- Claim C10: the InvestInLoan validations run in the order phase, then
positivity, then remaining capacity, then duplicate investor; hence an
investor who already holds a row on the loan and submits an amount above
the remaining capacity receives the capacity error, not the
duplicate-investor error. -/
theorem C10_invest_validation_order :
    (∀ (db : EngineState) (lid : Nat) (inv : LoanInvestment) (loan : Loan),
      loanRepoGetByID db lid = some loan → loan.currentState ≠ .approved →
      InvestInLoan db lid inv = (db, some .mustBeApprovedToInvest)) ∧
    (∀ (db : EngineState) (lid : Nat) (inv : LoanInvestment) (loan : Loan),
      loanRepoGetByID db lid = some loan → loan.currentState = .approved →
      inv.investmentAmount ≤ 0 →
      InvestInLoan db lid inv = (db, some .investmentAmountNotPositive)) ∧
    (∀ (db : EngineState) (lid : Nat) (inv : LoanInvestment) (loan : Loan)
      (y : LoanInvestment),
      loanRepoGetByID db lid = some loan → loan.currentState = .approved →
      0 < inv.investmentAmount →
      loan.principalAmount - loan.totalInvestedAmount < inv.investmentAmount →
      investmentRepoGetByLoanAndInvestor db lid inv.investorID = some y →
      InvestInLoan db lid inv = (db, some .exceedsRemainingPrincipal)) := by
  refine ⟨invest_wrong_state, invest_nonpositive, ?_⟩
  intro db lid inv loan y hget hstate hpos hover hdup
  exact invest_over_capacity db lid inv loan hget hstate hpos hover

/-- Concrete instance of C10: investor 7 already holds a row on loan 1 and
submits 50 with only 40 of capacity remaining; the call returns the
capacity error, not the duplicate-investor error. -/
theorem C10_invest_validation_order_witness :
    InvestInLoan ⟨[⟨1, 1, 100, 10, 10, "url", .approved, 60⟩], [], [], [⟨1, 7, 60⟩], []⟩ 1
        ⟨0, 7, 50⟩ =
      (⟨[⟨1, 1, 100, 10, 10, "url", .approved, 60⟩], [], [], [⟨1, 7, 60⟩], []⟩,
        some .exceedsRemainingPrincipal) :=
  C10_invest_validation_order.2.2 _ 1 ⟨0, 7, 50⟩ ⟨1, 1, 100, 10, 10, "url", .approved, 60⟩
    ⟨1, 7, 60⟩ rfl rfl (by norm_num) (by norm_num) rfl

theorem getByID_loanRepoUpdate (db : EngineState) (lnew : Loan) (tid : Nat) :
    loanRepoGetByID (loanRepoUpdate db lnew) tid =
      (loanRepoGetByID db tid).map (fun l => if l.id == lnew.id then lnew else l) := by
  unfold loanRepoGetByID loanRepoUpdate
  refine find?_map_pred _ _ (fun a => ?_) db.loans
  by_cases h : (a.id == lnew.id) = true
  · have h2 : a.id = lnew.id := by simpa using h
    simp [h, h2]
  · simp [h]

theorem getByID_principal_updateLoanRow (db : EngineState) (id0 : Nat) (f : Loan → Loan)
    (hf : ∀ l, (f l).id = l.id) (hp : ∀ l, (f l).principalAmount = l.principalAmount)
    (tid : Nat) (loan2 : Loan)
    (h2 : loanRepoGetByID (updateLoanRow db id0 f) tid = some loan2) :
    ∃ loan, loanRepoGetByID db tid = some loan ∧
      loan2.principalAmount = loan.principalAmount := by
  rw [getByID_updateLoanRow db id0 tid f hf] at h2
  cases hx : loanRepoGetByID db tid with
  | none =>
    rw [hx] at h2
    simp at h2
  | some loan =>
    rw [hx] at h2
    have h3 := Option.some.inj h2
    refine ⟨loan, rfl, ?_⟩
    by_cases h : (loan.id == id0) = true
    · rw [← h3]
      simp [h, hp]
    · rw [← h3]
      simp [h]

theorem principal_preserved_applyOp (db : EngineState) (op : Op) (lid : Nat)
    (loan loan2 : Loan)
    (h1 : loanRepoGetByID db lid = some loan)
    (h2 : loanRepoGetByID (applyOp db op).1 lid = some loan2) :
    loan2.principalAmount = loan.principalAmount := by
  cases op with
  | approve lid2 a =>
    rcases approveLoan_cases db lid2 a with ⟨e, he⟩ | ⟨loanx, hget, hstate, heq⟩
    · rw [show (applyOp db (Op.approve lid2 a)).1 = db by rw [show applyOp db
        (Op.approve lid2 a) = ApproveLoan db lid2 a from rfl, he], h1] at h2
      rw [Option.some.inj h2]
    · rw [show (applyOp db (Op.approve lid2 a)).1 = (ApproveLoan db lid2 a).1 from rfl, heq,
        getByID_historyRepoCreate] at h2
      obtain ⟨loanm, hm1, hm2⟩ := getByID_principal_updateLoanRow _ _
        (fun l => { l with currentState := LoanState.approved })
        (fun l => rfl) (fun l => rfl) _ _ h2
      rw [show loanRepoGetByID (approvalRepoCreate db { a with loanID := lid2 }) lid =
        loanRepoGetByID db lid from rfl, h1] at hm1
      rw [hm2, Option.some.inj hm1]
  | invest lid2 inv =>
    rcases investInLoan_cases db lid2 inv with
      ⟨e, he⟩ | ⟨loanx, hget, hstate, hpos, hcap, hdup, hout⟩
    · rw [show (applyOp db (Op.invest lid2 inv)).1 = db by rw [show applyOp db
        (Op.invest lid2 inv) = InvestInLoan db lid2 inv from rfl, he], h1] at h2
      rw [Option.some.inj h2]
    · rcases hout with ⟨hlt, heq⟩ | ⟨hge, heq⟩
      · rw [show (applyOp db (Op.invest lid2 inv)).1 = (InvestInLoan db lid2 inv).1 from rfl,
          heq] at h2
        obtain ⟨loanm, hm1, hm2⟩ := getByID_principal_updateLoanRow _ _
          (fun l => { l with
            totalInvestedAmount := loanx.totalInvestedAmount + inv.investmentAmount })
          (fun l => rfl) (fun l => rfl) _ _ h2
        rw [show loanRepoGetByID (investmentRepoCreate db { inv with loanID := lid2 }) lid =
          loanRepoGetByID db lid from rfl, h1] at hm1
        rw [hm2, Option.some.inj hm1]
      · rw [show (applyOp db (Op.invest lid2 inv)).1 = (InvestInLoan db lid2 inv).1 from rfl,
          heq, getByID_historyRepoCreate] at h2
        obtain ⟨loanm, hm1, hm2⟩ := getByID_principal_updateLoanRow _ _
          (fun l => { l with currentState := LoanState.invested })
          (fun l => rfl) (fun l => rfl) _ _ h2
        obtain ⟨loann, hn1, hn2⟩ := getByID_principal_updateLoanRow _ _
          (fun l => { l with
            totalInvestedAmount := loanx.totalInvestedAmount + inv.investmentAmount })
          (fun l => rfl) (fun l => rfl) _ _ hm1
        rw [show loanRepoGetByID (investmentRepoCreate db { inv with loanID := lid2 }) lid =
          loanRepoGetByID db lid from rfl, h1] at hn1
        rw [hm2, hn2, Option.some.inj hn1]
  | disburse lid2 d =>
    rcases disburseLoan_cases db lid2 d with ⟨e, he⟩ | ⟨loanx, hget, hstate, hfull, heq⟩
    · rw [show (applyOp db (Op.disburse lid2 d)).1 = db by rw [show applyOp db
        (Op.disburse lid2 d) = DisburseLoan db lid2 d from rfl, he], h1] at h2
      rw [Option.some.inj h2]
    · rw [show (applyOp db (Op.disburse lid2 d)).1 = (DisburseLoan db lid2 d).1 from rfl, heq,
        getByID_historyRepoCreate] at h2
      obtain ⟨loanm, hm1, hm2⟩ := getByID_principal_updateLoanRow _ _
        (fun l => { l with currentState := LoanState.disbursed })
        (fun l => rfl) (fun l => rfl) _ _ h2
      rw [show loanRepoGetByID (disbursementRepoCreate db { d with loanID := lid2 }) lid =
        loanRepoGetByID db lid from rfl, h1] at hm1
      rw [hm2, Option.some.inj hm1]

/-- Counterexample to C9 as stated: on a loan still in phase proposed with
principal 100, UpdateLoan with an input principal of 200 stores 200 - the
principal is not fixed at creation while the loan is proposed. -/
theorem C9_counterexample :
    (loanRepoGetByID (⟨[⟨1, 1, 100, 10, 10, "url", .proposed, 0⟩], [], [], [], []⟩ :
        EngineState) 1).map (fun l => l.principalAmount) = some 100 ∧
    (loanRepoGetByID (UpdateLoan ⟨[⟨1, 1, 100, 10, 10, "url", .proposed, 0⟩], [], [], [], []⟩
        1 ⟨1, 1, 200, 10, 10, "url", .proposed, 0⟩).1 1).map (fun l => l.principalAmount) =
      some 200 ∧
    (100 : ℚ) ≠ 200 := by
  refine ⟨rfl, rfl, by norm_num⟩

/-- Claim C9 (amended): the principal is fixed once the loan leaves the
proposed phase: Approve, Invest and Disburse never change the stored
principal_amount of any loan, and UpdateLoan preserves it whenever the
existing loan is not in phase proposed; UpdateLoan on a still-proposed
loan may change it. -/
theorem C9_principal_frame_amended :
    (∀ (db : EngineState) (op : Op) (lid : Nat) (loan loan2 : Loan),
      loanRepoGetByID db lid = some loan →
      loanRepoGetByID (applyOp db op).1 lid = some loan2 →
      loan2.principalAmount = loan.principalAmount) ∧
    (∀ (db : EngineState) (id : Nat) (input : Loan) (existing loan2 : Loan),
      loanRepoGetByID db id = some existing → existing.currentState ≠ .proposed →
      loanRepoGetByID (UpdateLoan db id input).1 id = some loan2 →
      loan2.principalAmount = existing.principalAmount) := by
  refine ⟨principal_preserved_applyOp, ?_⟩
  intro db id input existing loan2 hget hstate h2
  have heq : (UpdateLoan db id input).1 =
      loanRepoUpdate db
        { { input with
              borrowerID := existing.borrowerID
              principalAmount := existing.principalAmount
              rate := existing.rate
              roi := existing.roi
              agreementLetterLink := existing.agreementLetterLink } with id := id } := by
    unfold UpdateLoan
    rw [hget]
    simp [hstate]
  rw [heq, getByID_loanRepoUpdate, hget] at h2
  have hid : existing.id = id := by
    unfold loanRepoGetByID at hget
    have h4 := List.find?_some hget
    simpa using h4
  have h3 := Option.some.inj h2
  rw [← h3]
  simp [hid]

/-- Concrete instance of the amended C9: updating an approved loan whose
stored principal is 100 with an input principal of 200 leaves the stored
principal at 100. -/
theorem C9_principal_frame_amended_witness :
    (⟨1, 1, 100, 10, 10, "url", LoanState.approved, 5⟩ : Loan).principalAmount =
      (⟨1, 1, 100, 10, 10, "url", LoanState.approved, 0⟩ : Loan).principalAmount :=
  C9_principal_frame_amended.2
    ⟨[⟨1, 1, 100, 10, 10, "url", .approved, 0⟩], [], [], [], []⟩ 1
    ⟨1, 1, 200, 10, 10, "url2", .approved, 5⟩
    ⟨1, 1, 100, 10, 10, "url", .approved, 0⟩
    ⟨1, 1, 100, 10, 10, "url", .approved, 5⟩ rfl (by decide) rfl

/-- Claim C8: loanServiceImpl.GetTotalInvestedAmount delegates to
LoanRepository.GetTotalInvestedAmount, which reads the stored
total_invested_amount column - it does not recompute from the investment
ledger.  On a store whose column (5) has drifted from the ledger sum
(3 + 4 = 7), the exposed query returns 5 while the repository method
GetTotalInvestedAmountByLoan, which the service never calls, returns 7. -/
theorem C8_total_query_reads_stored_column :
    GetTotalInvestedAmount
        ⟨[⟨1, 1, 100, 10, 10, "url", .approved, 5⟩], [], [], [⟨1, 1, 3⟩, ⟨1, 2, 4⟩], []⟩ 1 =
      some 5 ∧
    investmentRepoGetTotalInvestedAmountByLoan
        ⟨[⟨1, 1, 100, 10, 10, "url", .approved, 5⟩], [], [], [⟨1, 1, 3⟩, ⟨1, 2, 4⟩], []⟩ 1 =
      7 ∧
    (5 : ℚ) ≠ 7 := by
  refine ⟨rfl, ?_, by norm_num⟩
  norm_num [investmentRepoGetTotalInvestedAmountByLoan, investmentsFor]

theorem invest_success_row (db : EngineState) (lid : Nat) (inv : LoanInvestment)
    (h : (InvestInLoan db lid inv).2 = none) :
    { inv with loanID := lid } ∈ investmentsFor (InvestInLoan db lid inv).1 lid := by
  rcases investInLoan_cases db lid inv with
    ⟨e, he⟩ | ⟨loan, hget, hstate, hpos, hcap, hdup, hout⟩
  · rw [he] at h
    simp at h
  · rcases hout with ⟨hlt, heq⟩ | ⟨hge, heq⟩
    · rw [heq]
      show _ ∈ investmentsFor (investmentRepoCreate db { inv with loanID := lid }) lid
      rw [investmentsFor_create]
      simp
    · rw [heq]
      show _ ∈ investmentsFor (investmentRepoCreate db { inv with loanID := lid }) lid
      rw [investmentsFor_create]
      simp

theorem mem_investments_applyOp (db : EngineState) (op : Op) (x : LoanInvestment)
    (hx : x ∈ db.investments) : x ∈ (applyOp db op).1.investments := by
  cases op with
  | approve lid2 a =>
    rcases approveLoan_cases db lid2 a with ⟨e, he⟩ | ⟨loan, hget, hstate, heq⟩
    · rw [show applyOp db (Op.approve lid2 a) = ApproveLoan db lid2 a from rfl, he]
      exact hx
    · rw [show applyOp db (Op.approve lid2 a) = ApproveLoan db lid2 a from rfl, heq]
      exact hx
  | invest lid2 inv =>
    rcases investInLoan_cases db lid2 inv with
      ⟨e, he⟩ | ⟨loan, hget, hstate, hpos, hcap, hdup, hout⟩
    · rw [show applyOp db (Op.invest lid2 inv) = InvestInLoan db lid2 inv from rfl, he]
      exact hx
    · rcases hout with ⟨hlt, heq⟩ | ⟨hge, heq⟩ <;>
        rw [show applyOp db (Op.invest lid2 inv) = InvestInLoan db lid2 inv from rfl, heq] <;>
        exact List.mem_append_left _ hx
  | disburse lid2 d =>
    rcases disburseLoan_cases db lid2 d with ⟨e, he⟩ | ⟨loan, hget, hstate, hfull, heq⟩
    · rw [show applyOp db (Op.disburse lid2 d) = DisburseLoan db lid2 d from rfl, he]
      exact hx
    · rw [show applyOp db (Op.disburse lid2 d) = DisburseLoan db lid2 d from rfl, heq]
      exact hx

theorem mem_investments_runOps (ops : List Op) (db : EngineState) (x : LoanInvestment)
    (hx : x ∈ db.investments) : x ∈ (runOps db ops).investments := by
  induction ops generalizing db with
  | nil => exact hx
  | cons op ops ih => exact ih _ (mem_investments_applyOp db op x hx)

theorem length_filter_eq_one_of_distinct (xs : List LoanInvestment) (iid : Nat)
    (hp : distinctInvestors xs) (x : LoanInvestment) (hx : x ∈ xs)
    (hxi : x.investorID = iid) :
    (xs.filter (fun i => i.investorID == iid)).length = 1 := by
  induction xs with
  | nil => cases hx
  | cons a xs ih =>
    have hp2 := List.pairwise_cons.mp hp
    rcases List.mem_cons.mp hx with heq | hmem
    · subst heq
      have hnone : xs.filter (fun i => i.investorID == iid) = [] := by
        rw [List.filter_eq_nil_iff]
        intro b hb
        simp only [beq_iff_eq]
        rw [← hxi]
        exact fun hbx => (hp2.1 b hb) hbx.symm
      rw [List.filter_cons, if_pos (by simp [hxi]), hnone]
      rfl
    · have hna : ¬(a.investorID == iid) = true := by
        simp only [beq_iff_eq]
        rw [← hxi]
        exact fun hax => (hp2.1 x hmem) hax
      rw [List.filter_cons, if_neg hna]
      exact ih hp2.2 hmem

theorem getByLoanAndInvestor_some_of_mem (db : EngineState) (lid iid : Nat)
    (x : LoanInvestment) (hx : x ∈ db.investments) (hxl : x.loanID = lid)
    (hxi : x.investorID = iid) :
    ∃ y, investmentRepoGetByLoanAndInvestor db lid iid = some y := by
  unfold investmentRepoGetByLoanAndInvestor
  cases hf : db.investments.find? (fun i => i.loanID == lid && i.investorID == iid) with
  | none =>
    rw [List.find?_eq_none] at hf
    exact absurd (by simp [hxl, hxi]) (hf x hx)
  | some y => exact ⟨y, rfl⟩

theorem count_investRecord_le_one (st : LoanState) (lid : Nat) :
    ((expectedHistory lid st).count (investRecord lid)) ≤ 1 := by
  cases st <;>
    simp [expectedHistory, approveRecord, investRecord, disburseRecord, List.count_cons,
      List.count_nil]

/-- Claim C1: starting from a freshly created loan (positive principal,
created in phase proposed with zero total), after any sequence of Approve,
Invest and Disburse calls the stored total equals the sum of the accepted
investment rows of the loan and never exceeds the principal; moreover an
InvestInLoan call whose amount exceeds the remaining capacity of an
existing loan returns an error and leaves the store unchanged. -/
theorem C1_total_equals_ledger_and_never_exceeds_principal
    (db0 : EngineState) (l : Loan) (db1 : EngineState)
    (hfreshLoan : loanRepoGetByID db0 l.id = none)
    (hfreshInv : investmentsFor db0 l.id = [])
    (hfreshHist : historyFor db0 l.id = [])
    (hcreate : CreateLoan db0 l = (db1, none)) (ops : List Op) :
    (∃ loan, loanRepoGetByID (runOps db1 ops) l.id = some loan ∧
      loan.totalInvestedAmount =
        investmentRepoGetTotalInvestedAmountByLoan (runOps db1 ops) l.id ∧
      loan.totalInvestedAmount ≤ loan.principalAmount) ∧
    (∀ (db : EngineState) (lid : Nat) (inv : LoanInvestment) (loan : Loan),
      loanRepoGetByID db lid = some loan →
      loan.principalAmount - loan.totalInvestedAmount < inv.investmentAmount →
      (InvestInLoan db lid inv).1 = db ∧ (InvestInLoan db lid inv).2 ≠ none) := by
  constructor
  · obtain ⟨loan, hf, ht, hle, -, -⟩ := runOps_preserves_inv ops db1 l.id
      (createLoan_establishes_inv db0 l db1 hfreshLoan hfreshInv hfreshHist hcreate)
    exact ⟨loan, hf, ht, hle⟩
  · intro db lid inv loan hget hover
    rcases investInLoan_cases db lid inv with
      ⟨e, he⟩ | ⟨loan2, hget2, hstate2, hpos2, hcap2, hdup2, hout2⟩
    · rw [he]
      exact ⟨rfl, by simp⟩
    · rw [hget2] at hget
      have hx : loan2 = loan := Option.some.inj hget
      subst hx
      exact absurd hcap2 (not_le.mpr hover)

/-- Concrete instance of C1: loan 1 (principal 100) is created, approved
and receives an investment of 40; the stored total equals the ledger sum
and stays within the principal, and an over-capacity investment of 70 on
the resulting store is rejected without changing it. -/
theorem C1_total_equals_ledger_and_never_exceeds_principal_witness :
    (∃ loan, loanRepoGetByID (runOps (CreateLoan EngineState.empty
        ⟨1, 1, 100, 10, 10, "url", .proposed, 0⟩).1
        [Op.approve 1 ⟨0, "EMP001", "proof.jpg"⟩, Op.invest 1 ⟨0, 7, 40⟩]) 1 = some loan ∧
      loan.totalInvestedAmount = investmentRepoGetTotalInvestedAmountByLoan
        (runOps (CreateLoan EngineState.empty ⟨1, 1, 100, 10, 10, "url", .proposed, 0⟩).1
          [Op.approve 1 ⟨0, "EMP001", "proof.jpg"⟩, Op.invest 1 ⟨0, 7, 40⟩]) 1 ∧
      loan.totalInvestedAmount ≤ loan.principalAmount) ∧
    ((InvestInLoan ⟨[⟨1, 1, 100, 10, 10, "url", .approved, 40⟩], [], [], [⟨1, 7, 40⟩], []⟩ 1
        ⟨0, 9, 70⟩).1 =
      ⟨[⟨1, 1, 100, 10, 10, "url", .approved, 40⟩], [], [], [⟨1, 7, 40⟩], []⟩ ∧
      (InvestInLoan ⟨[⟨1, 1, 100, 10, 10, "url", .approved, 40⟩], [], [], [⟨1, 7, 40⟩], []⟩ 1
        ⟨0, 9, 70⟩).2 ≠ none) := by
  have h := C1_total_equals_ledger_and_never_exceeds_principal EngineState.empty
    ⟨1, 1, 100, 10, 10, "url", .proposed, 0⟩ (CreateLoan EngineState.empty
      ⟨1, 1, 100, 10, 10, "url", .proposed, 0⟩).1 rfl rfl rfl rfl
    [Op.approve 1 ⟨0, "EMP001", "proof.jpg"⟩, Op.invest 1 ⟨0, 7, 40⟩]
  exact ⟨h.1, h.2 _ 1 ⟨0, 9, 70⟩ ⟨1, 1, 100, 10, 10, "url", .approved, 40⟩ rfl (by norm_num)⟩

/-- Claim C2: on an approved loan, an investment whose amount exactly
equals the remaining capacity is accepted, the phase becomes invested on
that same call and the funding Phase-Transition Record is appended; an
amount exceeding the remaining capacity is rejected with the capacity
error and nothing changes; and across any run from creation the funding
record appears at most once in the audit trail of the loan. -/
theorem C2_exact_fill_funds_and_over_capacity_rejected :
    (∀ (db : EngineState) (lid : Nat) (inv : LoanInvestment) (loan : Loan),
      loanRepoGetByID db lid = some loan → loan.currentState = .approved →
      0 < inv.investmentAmount →
      inv.investmentAmount = loan.principalAmount - loan.totalInvestedAmount →
      investmentRepoGetByLoanAndInvestor db lid inv.investorID = none →
      (InvestInLoan db lid inv).2 = none ∧
      loanRepoGetByID (InvestInLoan db lid inv).1 lid =
        some { loan with
          currentState := .invested
          totalInvestedAmount := loan.principalAmount } ∧
      historyFor (InvestInLoan db lid inv).1 lid =
        historyFor db lid ++ [investRecord lid]) ∧
    (∀ (db : EngineState) (lid : Nat) (inv : LoanInvestment) (loan : Loan),
      loanRepoGetByID db lid = some loan → loan.currentState = .approved →
      0 < inv.investmentAmount →
      loan.principalAmount - loan.totalInvestedAmount < inv.investmentAmount →
      InvestInLoan db lid inv = (db, some .exceedsRemainingPrincipal)) ∧
    (∀ (db0 : EngineState) (l : Loan) (db1 : EngineState) (ops : List Op),
      loanRepoGetByID db0 l.id = none → investmentsFor db0 l.id = [] →
      historyFor db0 l.id = [] → CreateLoan db0 l = (db1, none) →
      (historyFor (runOps db1 ops) l.id).count (investRecord l.id) ≤ 1) := by
  refine ⟨?_, ?_, ?_⟩
  · intro db lid inv loan hget hstate hpos hamt hdup
    have hnle : ¬inv.investmentAmount ≤ 0 := not_le.mpr hpos
    have hngt : ¬inv.investmentAmount >
        loan.principalAmount - loan.totalInvestedAmount := by
      rw [hamt]
      exact lt_irrefl _
    have hge : loan.totalInvestedAmount + inv.investmentAmount ≥ loan.principalAmount := by
      rw [hamt]
      linarith
    have hfull : loan.totalInvestedAmount + inv.investmentAmount = loan.principalAmount := by
      rw [hamt]
      ring
    have heq : InvestInLoan db lid inv =
        (historyRepoCreate
          (loanRepoUpdateState
            (loanRepoUpdateTotalInvestedAmount
              (investmentRepoCreate db { inv with loanID := lid }) lid
              (loan.totalInvestedAmount + inv.investmentAmount)) lid .invested)
          ⟨lid, loan.currentState, .invested, "Loan fully invested"⟩, none) := by
      unfold InvestInLoan
      rw [hget, hdup]
      simp [hstate, hnle, hngt, hge]
    refine ⟨by rw [heq], ?_, ?_⟩
    · rw [heq, getByID_historyRepoCreate, getByID_updateState_self, getByID_updateTotal_self,
        getByID_investmentRepoCreate, hget, hfull]
      rfl
    · rw [heq, historyFor_create]
      have hfr : historyFor
          (loanRepoUpdateState
            (loanRepoUpdateTotalInvestedAmount
              (investmentRepoCreate db { inv with loanID := lid }) lid
              (loan.totalInvestedAmount + inv.investmentAmount)) lid .invested) lid =
          historyFor db lid := rfl
      rw [hfr, hstate]
      simp [investRecord]
  · intro db lid inv loan hget hstate hpos hover
    exact invest_over_capacity db lid inv loan hget hstate hpos hover
  · intro db0 l db1 ops hfreshLoan hfreshInv hfreshHist hcreate
    obtain ⟨loan, hf, ht, hle, hhist, hu⟩ := runOps_preserves_inv ops db1 l.id
      (createLoan_establishes_inv db0 l db1 hfreshLoan hfreshInv hfreshHist hcreate)
    rw [hhist]
    exact count_investRecord_le_one loan.currentState l.id

/-- Concrete instance of C2: an exact-fill investment of 60 on an approved
loan with principal 100 and total 40 is accepted and funds the loan, one
of 70 is rejected with the capacity error, and a run from creation that
funds the loan carries exactly one funding record. -/
theorem C2_exact_fill_funds_and_over_capacity_rejected_witness :
    ((InvestInLoan ⟨[⟨1, 1, 100, 10, 10, "url", .approved, 40⟩], [], [], [⟨1, 7, 40⟩], []⟩ 1
        ⟨0, 8, 60⟩).2 = none ∧
      loanRepoGetByID (InvestInLoan ⟨[⟨1, 1, 100, 10, 10, "url", .approved, 40⟩], [], [],
        [⟨1, 7, 40⟩], []⟩ 1 ⟨0, 8, 60⟩).1 1 =
        some ⟨1, 1, 100, 10, 10, "url", .invested, 100⟩ ∧
      historyFor (InvestInLoan ⟨[⟨1, 1, 100, 10, 10, "url", .approved, 40⟩], [], [],
        [⟨1, 7, 40⟩], []⟩ 1 ⟨0, 8, 60⟩).1 1 = [investRecord 1]) ∧
    InvestInLoan ⟨[⟨1, 1, 100, 10, 10, "url", .approved, 40⟩], [], [], [⟨1, 7, 40⟩], []⟩ 1
        ⟨0, 9, 70⟩ =
      (⟨[⟨1, 1, 100, 10, 10, "url", .approved, 40⟩], [], [], [⟨1, 7, 40⟩], []⟩,
        some .exceedsRemainingPrincipal) ∧
    (historyFor (runOps (CreateLoan EngineState.empty
        ⟨1, 1, 100, 10, 10, "url", .proposed, 0⟩).1
        [Op.approve 1 ⟨0, "EMP001", "proof.jpg"⟩, Op.invest 1 ⟨0, 7, 100⟩]) 1).count
      (investRecord 1) ≤ 1 :=
  ⟨C2_exact_fill_funds_and_over_capacity_rejected.1 _ 1 ⟨0, 8, 60⟩
      ⟨1, 1, 100, 10, 10, "url", .approved, 40⟩ rfl rfl (by norm_num) (by norm_num) rfl,
    C2_exact_fill_funds_and_over_capacity_rejected.2.1 _ 1 ⟨0, 9, 70⟩
      ⟨1, 1, 100, 10, 10, "url", .approved, 40⟩ rfl rfl (by norm_num) (by norm_num),
    C2_exact_fill_funds_and_over_capacity_rejected.2.2 EngineState.empty
      ⟨1, 1, 100, 10, 10, "url", .proposed, 0⟩ _
      [Op.approve 1 ⟨0, "EMP001", "proof.jpg"⟩, Op.invest 1 ⟨0, 7, 100⟩] rfl rfl rfl rfl⟩

/-- Claim C5: once an investment by some investor has been accepted on a
loan, any later InvestInLoan on that loan by the same investor with a
positive amount within the remaining capacity fails with the
duplicate-investor error, and the ledger holds exactly one row for that
(loan, investor) pair. -/
theorem C5_duplicate_investor_rejected
    (db0 : EngineState) (l : Loan) (db1 db2 db3 db4 : EngineState)
    (hfreshLoan : loanRepoGetByID db0 l.id = none)
    (hfreshInv : investmentsFor db0 l.id = [])
    (hfreshHist : historyFor db0 l.id = [])
    (hcreate : CreateLoan db0 l = (db1, none))
    (ops1 : List Op) (hdb2 : runOps db1 ops1 = db2)
    (invX : LoanInvestment) (hacc : InvestInLoan db2 l.id invX = (db3, none))
    (ops2 : List Op) (hdb4 : runOps db3 ops2 = db4)
    (inv2 : LoanInvestment) (hsame : inv2.investorID = invX.investorID)
    (loan : Loan) (hget : loanRepoGetByID db4 l.id = some loan)
    (hstate : loan.currentState = .approved)
    (hpos : 0 < inv2.investmentAmount)
    (hcap : inv2.investmentAmount ≤ loan.principalAmount - loan.totalInvestedAmount) :
    InvestInLoan db4 l.id inv2 = (db4, some .investorAlreadyInvested) ∧
    (ledgerRowsFor db4 l.id invX.investorID).length = 1 := by
  have hrow3 : { invX with loanID := l.id } ∈ investmentsFor db3 l.id := by
    have h := invest_success_row db2 l.id invX (by rw [hacc])
    rw [hacc] at h
    exact h
  have hrow4mem : { invX with loanID := l.id } ∈ db4.investments := by
    rw [← hdb4]
    exact mem_investments_runOps ops2 db3 _ (List.mem_filter.mp hrow3).1
  have hrow4 : { invX with loanID := l.id } ∈ investmentsFor db4 l.id := by
    exact List.mem_filter.mpr ⟨hrow4mem, by simp⟩
  have hinv4 : LoanInv db4 l.id := by
    rw [← hdb4]
    apply runOps_preserves_inv
    have hinv2 : LoanInv db2 l.id := by
      rw [← hdb2]
      exact runOps_preserves_inv ops1 db1 l.id
        (createLoan_establishes_inv db0 l db1 hfreshLoan hfreshInv hfreshHist hcreate)
    have h3 := investInLoan_preserves_inv db2 l.id invX l.id hinv2
    rw [hacc] at h3
    exact h3
  obtain ⟨loan4, hf4, ht4, hle4, hh4, hu4⟩ := hinv4
  constructor
  · obtain ⟨y, hy⟩ := getByLoanAndInvestor_some_of_mem db4 l.id inv2.investorID _
      hrow4mem (by simp) (by simp [hsame])
    exact invest_duplicate_rejected db4 l.id inv2 loan y hget hstate hpos hcap hy
  · exact length_filter_eq_one_of_distinct _ _ hu4 _ hrow4 (by simp)

/-- Concrete instance of C5: investor 7 invests 40 in the approved loan 1
(principal 100); a second investment of 30 by investor 7 is rejected as a
duplicate and the ledger holds exactly one row for (1, 7). -/
theorem C5_duplicate_investor_rejected_witness :
    InvestInLoan ⟨[⟨1, 1, 100, 10, 10, "url", .approved, 40⟩],
        [⟨1, "EMP001", "proof.jpg"⟩], [], [⟨1, 7, 40⟩],
        [⟨1, .proposed, .approved, "Loan approved by staff"⟩]⟩ 1 ⟨0, 7, 30⟩ =
      (⟨[⟨1, 1, 100, 10, 10, "url", .approved, 40⟩],
        [⟨1, "EMP001", "proof.jpg"⟩], [], [⟨1, 7, 40⟩],
        [⟨1, .proposed, .approved, "Loan approved by staff"⟩]⟩,
        some .investorAlreadyInvested) ∧
    (ledgerRowsFor ⟨[⟨1, 1, 100, 10, 10, "url", .approved, 40⟩],
        [⟨1, "EMP001", "proof.jpg"⟩], [], [⟨1, 7, 40⟩],
        [⟨1, .proposed, .approved, "Loan approved by staff"⟩]⟩ 1 7).length = 1 :=
by
  have hacc : InvestInLoan ⟨[⟨1, 1, 100, 10, 10, "url", .approved, 0⟩],
      [⟨1, "EMP001", "proof.jpg"⟩], [], [],
      [⟨1, .proposed, .approved, "Loan approved by staff"⟩]⟩ 1 ⟨0, 7, 40⟩ =
      (⟨[⟨1, 1, 100, 10, 10, "url", .approved, 40⟩],
        [⟨1, "EMP001", "proof.jpg"⟩], [], [⟨1, 7, 40⟩],
        [⟨1, .proposed, .approved, "Loan approved by staff"⟩]⟩, none) := by
    unfold InvestInLoan loanRepoGetByID investmentRepoGetByLoanAndInvestor
    simp only [List.find?]
    norm_num [investmentRepoCreate, loanRepoUpdateTotalInvestedAmount, updateLoanRow,
      loanRepoUpdateState, historyRepoCreate, EngineState.mk.injEq, Loan.mk.injEq]
  exact C5_duplicate_investor_rejected EngineState.empty
    ⟨1, 1, 100, 10, 10, "url", .proposed, 0⟩
    ⟨[⟨1, 1, 100, 10, 10, "url", .proposed, 0⟩], [], [], [], []⟩
    ⟨[⟨1, 1, 100, 10, 10, "url", .approved, 0⟩],
      [⟨1, "EMP001", "proof.jpg"⟩], [], [],
      [⟨1, .proposed, .approved, "Loan approved by staff"⟩]⟩
    ⟨[⟨1, 1, 100, 10, 10, "url", .approved, 40⟩],
      [⟨1, "EMP001", "proof.jpg"⟩], [], [⟨1, 7, 40⟩],
      [⟨1, .proposed, .approved, "Loan approved by staff"⟩]⟩
    ⟨[⟨1, 1, 100, 10, 10, "url", .approved, 40⟩],
      [⟨1, "EMP001", "proof.jpg"⟩], [], [⟨1, 7, 40⟩],
      [⟨1, .proposed, .approved, "Loan approved by staff"⟩]⟩
    rfl rfl rfl rfl [Op.approve 1 ⟨0, "EMP001", "proof.jpg"⟩] rfl ⟨0, 7, 40⟩ hacc []
    rfl ⟨0, 7, 30⟩ rfl ⟨1, 1, 100, 10, 10, "url", .approved, 40⟩ rfl rfl (by norm_num)
    (by norm_num)

theorem mem_append_cons_of_mem_append {α : Type} (x c : α) (pre post : List α)
    (h : x ∈ pre ++ post) : x ∈ pre ++ c :: post := by
  rcases List.mem_append.mp h with h1 | h2
  · exact List.mem_append_left _ h1
  · exact List.mem_append_right _ (List.mem_cons_of_mem _ h2)

theorem concInv_of_reach (s0 s : ConcState)
    (hinit : s0.loan.totalInvestedAmount ≤ s0.loan.principalAmount)
    (hfresh : ∀ c ∈ s0.pending, c.snapshot = none)
    (hreach : InvestReach s0 s) :
    s.loan.principalAmount = s0.loan.principalAmount ∧
    s.loan.totalInvestedAmount ≤ s0.loan.principalAmount ∧
    ∀ c ∈ s.pending, ∀ snap, c.snapshot = some snap →
      snap.principalAmount = s0.loan.principalAmount := by
  unfold InvestReach at hreach
  induction hreach with
  | refl =>
    refine ⟨rfl, hinit, ?_⟩
    intro c hc snap hsnap
    rw [hfresh c hc] at hsnap
    cases hsnap
  | tail hab hbc ih =>
    obtain ⟨hp, ht, hsnaps⟩ := ih
    cases hbc with
    | read loan ledger pre post c hc =>
      refine ⟨hp, ht, ?_⟩
      intro c2 hc2 snap hsnap
      rcases List.mem_append.mp hc2 with h1 | h2
      · exact hsnaps c2 (List.mem_append_left _ h1) snap hsnap
      · rcases List.mem_cons.mp h2 with rfl | h3
        · have : some loan = some snap := hsnap
          rw [← Option.some.inj this]
          exact hp
        · exact hsnaps c2 (List.mem_append_right _ (List.mem_cons_of_mem _ h3)) snap hsnap
    | commit loan ledger pre post c snap2 hc hok =>
      have hcmem : c ∈ pre ++ c :: post :=
        List.mem_append_right _ (List.mem_cons_self c post)
      have hsnapP : snap2.principalAmount = s0.loan.principalAmount :=
        hsnaps c hcmem snap2 hc
      refine ⟨hp, ?_, ?_⟩
      · have hcap := hok.2.2
        have : snap2.totalInvestedAmount + c.amount ≤ snap2.principalAmount := by linarith
        rw [hsnapP] at this
        exact this
      · intro c2 hc2 snap hsnap
        exact hsnaps c2 (mem_append_cons_of_mem_append c2 c pre post hc2) snap hsnap
    | giveup loan ledger pre post c =>
      refine ⟨hp, ht, ?_⟩
      intro c2 hc2 snap hsnap
      exact hsnaps c2 (mem_append_cons_of_mem_append c2 c pre post hc2) snap hsnap

/-- Claim C4: under any interleaving of the reads and writes of any set of
InvestInLoan calls on one loan (modelled by InvestStep: each call reads
its snapshot of the loans row, and later commits the ledger insert, the
total write computed from that snapshot, and the conditional phase write,
with the capacity check evaluated against the snapshot), the committed
total_invested_amount never exceeds the principal: every committed write
stores snapshotTotal + amount, which the snapshot-based capacity check
bounds by the principal, and no step changes the principal. -/
theorem C4_concurrent_total_never_exceeds_principal (s0 s : ConcState)
    (hinit : s0.loan.totalInvestedAmount ≤ s0.loan.principalAmount)
    (hfresh : ∀ c ∈ s0.pending, c.snapshot = none)
    (hreach : InvestReach s0 s) :
    s.loan.totalInvestedAmount ≤ s.loan.principalAmount := by
  obtain ⟨hp, ht, -⟩ := concInv_of_reach s0 s hinit hfresh hreach
  rw [hp]
  exact ht

/-- Concrete instance of C4: a lost-update race in which two investors
both read total 0 on a loan with principal 100, both pass the capacity
check (70 and 80), and both commit; after the interleaving the stored
total (0 + 80, the last write) is still at most the principal - even
though the ledger now holds 70 + 80 = 150 of accepted rows. -/
theorem C4_concurrent_total_never_exceeds_principal_witness :
    ((⟨⟨1, 1, 100, 10, 10, "url",
        (if (100 : ℚ) ≤ 0 + 80 then LoanState.invested
          else if (100 : ℚ) ≤ 0 + 70 then LoanState.invested else LoanState.approved),
        (0 : ℚ) + 80⟩, [],
      [⟨1, 1, 70⟩, ⟨1, 2, 80⟩]⟩ : ConcState)).loan.totalInvestedAmount ≤
    ((⟨⟨1, 1, 100, 10, 10, "url",
        (if (100 : ℚ) ≤ 0 + 80 then LoanState.invested
          else if (100 : ℚ) ≤ 0 + 70 then LoanState.invested else LoanState.approved),
        (0 : ℚ) + 80⟩, [],
      [⟨1, 1, 70⟩, ⟨1, 2, 80⟩]⟩ : ConcState)).loan.principalAmount :=
  C4_concurrent_total_never_exceeds_principal
    ⟨⟨1, 1, 100, 10, 10, "url", .approved, 0⟩, [⟨1, 70, none⟩, ⟨2, 80, none⟩], []⟩
    _ (by norm_num)
    (by
      intro c hc
      simp only [List.mem_cons, List.not_mem_nil, or_false] at hc
      rcases hc with rfl | rfl
      · rfl
      · rfl)
    (Relation.ReflTransGen.tail
      (Relation.ReflTransGen.tail
        (Relation.ReflTransGen.tail
          (Relation.ReflTransGen.tail Relation.ReflTransGen.refl
            (InvestStep.read ⟨1, 1, 100, 10, 10, "url", .approved, 0⟩ [] []
              [⟨2, 80, none⟩] ⟨1, 70, none⟩ rfl))
          (InvestStep.read ⟨1, 1, 100, 10, 10, "url", .approved, 0⟩ []
            [⟨1, 70, some ⟨1, 1, 100, 10, 10, "url", .approved, 0⟩⟩] [] ⟨2, 80, none⟩ rfl))
        (InvestStep.commit ⟨1, 1, 100, 10, 10, "url", .approved, 0⟩ [] []
          [⟨2, 80, some ⟨1, 1, 100, 10, 10, "url", .approved, 0⟩⟩]
          ⟨1, 70, some ⟨1, 1, 100, 10, 10, "url", .approved, 0⟩⟩
          ⟨1, 1, 100, 10, 10, "url", .approved, 0⟩ rfl
          ⟨rfl, by norm_num, by norm_num⟩))
      (InvestStep.commit
        ⟨1, 1, 100, 10, 10, "url",
          (if (100 : ℚ) ≤ 0 + 70 then LoanState.invested else LoanState.approved),
          (0 : ℚ) + 70⟩
        [⟨1, 1, 70⟩] [] []
        ⟨2, 80, some ⟨1, 1, 100, 10, 10, "url", .approved, 0⟩⟩
        ⟨1, 1, 100, 10, 10, "url", .approved, 0⟩ rfl
        ⟨rfl, by norm_num, by norm_num⟩))

end LoanEngine
